import Mathlib

/-!
# Verification of the SuperDoc VS Code extension command engine

Shallow embedding of the webview command engine (src/webview/main.js) and of
the host-side custom editor provider (src/src/superdocEditorProvider.ts) of
the superdoc-dev/vscode-extension repository.

Modelling conventions:
* The live document is modelled by its flat text content (a list of
  characters), as the Anchor Resolver contract exposes it: positions are
  0-based character offsets into that text (the rendering engine's internal
  node-boundary offsets are shifted so that the first text position is 0).
* The external rich-text engine (SuperDoc) is opaque in the repository; its
  operations used by the handlers (search, text selection, content
  insertion/removal) are modelled on the flat text, and purely visual
  operations (bold, color, ...) are recorded in an effect trace.
* JavaScript truthiness is modelled explicitly where the code relies on it
  (empty string, the number 0 and absent values are falsy).
* All recursive text functions take explicit fuel so that every definition
  is kernel-computable on concrete inputs.
-/

namespace SuperDoc

/-! ## Flat-text utilities -/

/-- Whitespace test modelling the characters JS String.prototype.trim strips
(the common ones; the document text model only ever contains these). -/
def isWs (c : Char) : Bool := c = ' ' || c = '\t' || c = '\n' || c = '\r'

/-- Model of JS String.prototype.trim on a character list. -/
def trimChars (s : List Char) : List Char :=
  ((s.dropWhile isWs).reverse.dropWhile isWs).reverse

/-- Replace the half-open range [f, t) of the text with repl.  This is the
text-level effect of selecting that range and inserting content over the
selection (selectRange followed by commands.insertContent in main.js). -/
def replaceRange (doc : List Char) (f t : Nat) (repl : List Char) : List Char :=
  doc.take f ++ repl ++ doc.drop t

/-- Insert text at a position (setTextSelection to a caret then insertContent). -/
def insertTextAt (doc : List Char) (p : Nat) (repl : List Char) : List Char :=
  replaceRange doc p p repl

/-- Start offsets of the leftmost non-overlapping occurrences of pat,
fuel-based so that it is structural.  This models the external engine's
literal text search (activeEditor.commands.search) which returns the ordered
match list over the current document text. -/
def occPosF (pat : List Char) : Nat → List Char → List Nat
  | 0, _ => []
  | _ + 1, [] => []
  | fuel + 1, d :: ds =>
    if pat.isPrefixOf (d :: ds) then
      0 :: (occPosF pat fuel (ds.drop (pat.length - 1))).map (· + pat.length)
    else
      (occPosF pat fuel ds).map (· + 1)

/-- Start offsets of the leftmost non-overlapping occurrences of pat in doc
(document order).  Empty search text never matches (the handlers reject it
before searching). -/
def occPositions (pat doc : List Char) : List Nat :=
  if pat.isEmpty then [] else occPosF pat doc.length doc

/-- Reference all-occurrence replacement, fuel-based. -/
def replAllF (pat repl : List Char) : Nat → List Char → List Char
  | 0, doc => doc
  | _ + 1, [] => []
  | fuel + 1, d :: ds =>
    if pat.isPrefixOf (d :: ds) then
      repl ++ replAllF pat repl fuel (ds.drop (pat.length - 1))
    else
      d :: replAllF pat repl fuel ds

/-- Definition following the spec's words (for the refinement claim about
replaceText): the document with every leftmost non-overlapping match of pat
replaced by repl. -/
def replaceAllSpec (pat repl doc : List Char) : List Char :=
  if pat.isEmpty then doc else replAllF pat repl doc.length doc

/-- Join segments with a separator: joinSep sep [u0, u1, ..., un] is
u0 ++ sep ++ u1 ++ sep ++ ... ++ un.  Used to state that replacement
preserves the text around and between the matches. -/
def joinSep (sep : List Char) : List (List Char) → List Char
  | [] => []
  | [s] => s
  | s :: t :: rest => s ++ sep ++ joinSep sep (t :: rest)

/-! ## Decimal rendering (model of JS template-string number interpolation)

The TOC handler builds bookmark identifiers with the template string
literal underscore-Toc-underscore-i-underscore-timestamp, interpolating the
entry index and the Date.now() timestamp in decimal. -/

/-- Fuel-based decimal digit list of a natural number. -/
def natToDigitsF : Nat → Nat → List Char
  | 0, _ => []
  | fuel + 1, n =>
    if n < 10 then [Nat.digitChar n]
    else natToDigitsF fuel (n / 10) ++ [Nat.digitChar (n % 10)]

/-- Decimal digit list of a natural number, as JS renders numbers. -/
def natToDigits (n : Nat) : List Char := natToDigitsF (n + 1) n

/-! ## Bookmark identifiers (cmdInsertTableOfContents, main.js line 845) -/

/-- The character list of the bookmark identifier synthesized for TOC entry
index i with the shared timestamp: literally underscore, T, o, c,
underscore, decimal i, underscore, decimal timestamp. -/
def mkBookmarkChars (i timestamp : Nat) : List Char :=
  '_' :: 'T' :: 'o' :: 'c' :: '_' :: (natToDigits i ++ '_' :: natToDigits timestamp)

/-- The bookmark identifier string for TOC entry index i at a timestamp. -/
def mkBookmarkName (i timestamp : Nat) : String :=
  String.mk (mkBookmarkChars i timestamp)

/-! ## Webview editor model (src/webview/main.js)

The document session state visible to the command handlers.  The opaque
rendering engine is modelled by the flat document text, a selection, a node
index (positions and text sizes of structural nodes; zero-width nodes such
as bookmarks and images have size 0), and a trace of the purely visual
engine commands the handlers issue. -/

inductive Mode
  | editing
  | suggesting
  deriving DecidableEq, Repr

/-- A JS argument that is either a string or the literal false. -/
inductive StrOrFalse
  | str (s : String)
  | fval
  deriving DecidableEq, Repr

/-- Result of JS parseFloat on an argument: a number (fractional values are
not exercised by any claim and are modelled by integers) or NaN. -/
inductive JsNum
  | num (v : Int)
  | nan
  deriving DecidableEq, Repr

structure AuthorArg where
  name : Option String := none
  email : Option String := none
  deriving DecidableEq, Repr

structure PositionArg where
  after : Option String := none
  before : Option String := none
  deriving DecidableEq, Repr

/-- A TOC entry argument; the fields model the JS properties level, from, to
(from and to are reserved words in Lean). -/
structure TocEntryArg where
  level : Int
  efrom : Int
  eto : Int
  deriving DecidableEq, Repr

structure StyleArg where
  bold : Option Bool := none
  color : Option String := none
  fontFamily : Option String := none
  fontSize : Option String := none
  deriving DecidableEq, Repr

inductive ScopeArg
  | document
  | range (sfrom sto : Nat)
  deriving DecidableEq, Repr

/-- The args mapping of a command request (each handler reads the fields it
documents; absent fields are none). -/
structure Args where
  search : Option String := none
  replacement : Option String := none
  occurrence : Option Int := none
  author : Option AuthorArg := none
  content : Option String := none
  position : Option PositionArg := none
  format : Option String := none
  ntype : Option String := none
  index : Option Int := none
  rows : Option Nat := none
  cols : Option Nat := none
  data : Option (List (List String)) := none
  src : Option String := none
  alt : Option String := none
  width : Option Nat := none
  fontFamily : Option String := none
  fontSize : Option String := none
  color : Option StrOrFalse := none
  highlight : Option StrOrFalse := none
  bold : Option Bool := none
  italic : Option Bool := none
  underline : Option Bool := none
  strikethrough : Option Bool := none
  link : Option StrOrFalse := none
  lineHeight : Option JsNum := none
  indent : Option JsNum := none
  spacingBefore : Option JsNum := none
  spacingAfter : Option JsNum := none
  scope : Option ScopeArg := none
  entries : Option (List (Option TocEntryArg)) := none
  title : Option String := none
  style : Option StyleArg := none
  comment : Option String := none
  removeBookmarks : Bool := false
  deriving DecidableEq, Repr

/-- Purely visual engine commands issued by the handlers, recorded as a
trace (the opaque engine applies them to the current selection). -/
inductive Fx
  | setFontFamily (v : String)
  | setFontSize (v : String)
  | setColor (v : String)
  | setHighlight (v : String)
  | unsetHighlight
  | setBold
  | unsetBold
  | setItalic
  | unsetItalic
  | setUnderline
  | unsetUnderline
  | setStrike
  | unsetStrike
  | setLink (href : String)
  | unsetLink
  | setTextIndentation (pts : Int)
  | unsetTextIndentation
  | setLineHeight (v : Int)
  | unsetLineHeight
  | setSpacingBefore (twips : Int)
  | setSpacingAfter (twips : Int)
  | addComment (content author email : String)
  deriving DecidableEq, Repr

/-- A structural node of the document as the node index exposes it.  In the
flat-text model a node's size is the number of text characters it spans; the
identifier attributes carry bookmark names. -/
structure DocNode where
  name : String
  pos : Nat
  size : Nat
  childSizes : List Nat := []
  attrName : Option String := none
  attrId : Option String := none
  deriving DecidableEq, Repr

structure UserIdent where
  name : String
  email : String
  deriving DecidableEq, Repr

/-- The webview session state. now models the Date.now() clock the handlers
read; undoOk/redoOk model the external engine's answer to the native
undo/redo commands; saved records the exported byte blobs (as text) that
saveDocument forwarded to the host. -/
structure EditorState where
  hasEditor : Bool := true
  doc : List Char := []
  sel : Nat × Nat := (0, 0)
  mode : Mode := Mode.editing
  trackChanges : Bool := false
  user : UserIdent := ⟨"Claude", "claude@anthropic.com"⟩
  nodes : List DocNode := []
  fx : List Fx := []
  saved : List (List Char) := []
  now : Nat := 0
  undoOk : Bool := false
  redoOk : Bool := false
  deriving DecidableEq, Repr

/-- A text-search match: half-open range [mfrom, mto) plus the matched
literal text (the JS match object's from/to/text). -/
structure SMatch where
  mfrom : Nat
  mto : Nat
  mtext : String
  deriving DecidableEq, Repr

/-- getNodes result entry (index, type, from, to, preview text, length). -/
structure NodeInfo where
  index : Nat
  ntype : String
  nfrom : Nat
  nto : Nat
  text : String
  textLength : Nat
  deriving DecidableEq, Repr

structure TocResEntry where
  level : Int
  text : String
  bookmark : String
  deriving DecidableEq, Repr

/-- Command result payloads (the result field of a Command Result). -/
inductive ResVal
  | textHtml (text html : Option String)
  | nodeList (entries : List NodeInfo) (count : Nat)
  | replaced (replacedCount : Nat)
  | applied (effects : List String)
  | deleted (deletedType : String) (deletedIndex : Int)
  | tableDims (rows cols : Nat)
  | tocEntries (entriesCount : Nat) (entries : List TocResEntry)
  | commentedText (text : String)
  deriving DecidableEq, Repr

/-- A Command Result: success flag plus optional result payload / error. -/
structure CmdResult where
  success : Bool
  result : Option ResVal := none
  error : Option String := none
  deriving DecidableEq, Repr

/-- A failure result carrying an error message. -/
def errResult (msg : String) : CmdResult := { success := false, error := some msg }

/-- A success result carrying a payload. -/
def okWith (v : ResVal) : CmdResult := { success := true, result := some v }

/-- requireActiveEditor failure result. -/
def noActiveEditor : CmdResult := errResult "No active editor"

/-! ### Editor helpers (main.js lines 260-342) -/

/-- JS truthiness of an optional string (absent and empty are falsy). -/
def strTruthy : Option String → Bool
  | some s => s ≠ ""
  | none => false

/-- JS truthiness of a string-or-false argument. -/
def sofTruthy : Option StrOrFalse → Bool
  | some (StrOrFalse.str s) => s ≠ ""
  | _ => false

/-- The wrapper setDocumentMode (main.js line 280): switches the document
mode and, when entering suggesting, enables track-changes recording. -/
def setDocumentMode (m : Mode) (st : EditorState) : EditorState :=
  if m = Mode.suggesting then { st with mode := m, trackChanges := true }
  else { st with mode := m }

/-- Direct editor.setDocumentMode (used by cmdFormatText), which does not
touch the track-changes capability. -/
def setDocumentModeRaw (m : Mode) (st : EditorState) : EditorState :=
  { st with mode := m }

/-- Default email synthesized from an author name:
name.toLowerCase().replace(whitespace-runs, ".") + "@user.local". -/
def lowerDotAux : List Char → Bool → List Char
  | [], _ => []
  | c :: cs, prevWs =>
    if isWs c then
      if prevWs then lowerDotAux cs true else '.' :: lowerDotAux cs true
    else c.toLower :: lowerDotAux cs false

def defaultEmail (name : String) : String :=
  String.mk (lowerDotAux name.data false) ++ "@user.local"

/-- setAuthorIfProvided: when a (truthy) author name is given, set the
attribution identity on the session (and the active editor, which the model
does not distinguish). -/
def setAuthorIfProvided (author : Option AuthorArg) (st : EditorState) : EditorState :=
  match author with
  | some a =>
    match a.name with
    | some n =>
      if n ≠ "" then
        let email := match a.email with
          | some e => if e ≠ "" then e else defaultEmail n
          | none => defaultEmail n
        { st with user := ⟨n, email⟩ }
      else st
    | none => st
  | none => st

/-- searchText: the engine's literal search over the current document text,
returning the ordered match list. -/
def searchText (st : EditorState) (text : String) : List SMatch :=
  (occPositions text.data st.doc).map
    (fun p => { mfrom := p, mto := p + text.length, mtext := text })

/-- findAnchor: first match or none. -/
def findAnchor (st : EditorState) (anchor : String) : Option SMatch :=
  (searchText st anchor).head?

/-- JS truthiness of the occurrence argument inside findMatch: the guard is
a plain truthiness test, so the number 0 counts as absent. -/
def occurrenceTruthy : Option Int → Bool
  | some v => v != 0
  | none => false

/-- How the occurrence argument prints inside the error message. -/
def occDisplay : Option Int → String
  | some v => toString v
  | none => "undefined"

/-- findMatch (main.js lines 312-322): ordinal-selecting match lookup. -/
def findMatch (st : EditorState) (search : String) (occurrence : Option Int) :
    Except String (SMatch × List SMatch) :=
  let ms := searchText st search
  if hm : ms.isEmpty then
    Except.error ("Text not found: \"" ++ search ++ "\"")
  else
    let idx : Int := if occurrenceTruthy occurrence then (occurrence.getD 0) - 1 else 0
    if h : idx < 0 ∨ (ms.length : Int) ≤ idx then
      Except.error ("Occurrence " ++ occDisplay occurrence ++ " not found (only " ++
        toString ms.length ++ " matches)")
    else
      Except.ok (ms.get ⟨idx.toNat, by omega⟩, ms)

/-- Drop the nodes starting inside an edited range [f, t) and shift the
positions of the nodes past it by the length change (the node index after a
text edit). -/
def shiftNodesAfterEdit (nodes : List DocNode) (f t newLen : Nat) : List DocNode :=
  (nodes.filter (fun n => !(f ≤ n.pos && n.pos < t))).map
    (fun n => if t ≤ n.pos then { n with pos := n.pos - t + f + newLen } else n)

/-- Text-level effect of commands.insertContent with a string: replace the
current selection with the text, leaving the caret after it. -/
def insertContentText (s : List Char) (st : EditorState) : EditorState :=
  { st with
    doc := replaceRange st.doc st.sel.1 st.sel.2 s,
    nodes := shiftNodesAfterEdit st.nodes st.sel.1 st.sel.2 s.length,
    sel := (st.sel.1 + s.length, st.sel.1 + s.length) }

/-- selectRange: focus the view and set the selection (to defaults to from). -/
def selectRange (f : Nat) (t : Option Nat) (st : EditorState) : EditorState :=
  { st with sel := (f, t.getD f) }

/-- insertAtPosition: caret selection at the position, then insertContent. -/
def insertAtPosition (p : Nat) (s : List Char) (st : EditorState) : EditorState :=
  insertContentText s { st with sel := (p, p) }

/-- applyScope: select the whole document, an explicit range, or keep the
current selection. -/
def applyScope (scope : Option ScopeArg) (st : EditorState) : EditorState :=
  match scope with
  | some ScopeArg.document => { st with sel := (0, st.doc.length) }
  | some (ScopeArg.range f t) => { st with sel := (f, t) }
  | none => st

/-- commands.deleteSelection: remove the selected range. -/
def deleteSelection (st : EditorState) : EditorState :=
  { st with
    doc := replaceRange st.doc st.sel.1 st.sel.2 [],
    nodes := shiftNodesAfterEdit st.nodes st.sel.1 st.sel.2 0,
    sel := (st.sel.1, st.sel.1) }

/-- saveDocument: export the session to its byte blob and forward it to the
host (recorded in saved); without an editor it does nothing. -/
def saveDocument (st : EditorState) : EditorState :=
  if st.hasEditor then { st with saved := st.saved ++ [st.doc] } else st

/-- Record a visual engine command in the trace. -/
def pushFx (e : Fx) (st : EditorState) : EditorState :=
  { st with fx := st.fx ++ [e] }

/-- The anchor text of a position argument: after if truthy, else before
(an empty-string anchor is falsy and counts as absent). -/
def posAfterTruthy (p : Option PositionArg) : Bool :=
  match p with
  | some pa => strTruthy pa.after
  | none => false

def anchorOf (p : Option PositionArg) : Option String :=
  if posAfterTruthy p then p.bind (fun pa => pa.after)
  else
    match p.bind (fun pa => pa.before) with
    | some b => if b ≠ "" then some b else none
    | none => none

/-! ## Command handlers (main.js lines 344-1047)

Each handler returns an Except String CmdResult (error = a thrown JS
exception, caught at the dispatch boundary) together with the state it
leaves behind. -/

/-- cmdGetText: text and/or HTML serialization of the whole document.  The
external HTML renderer is opaque; the model serializes the flat text for
both formats. -/
def cmdGetText (args : Args) (st : EditorState) : Except String CmdResult × EditorState :=
  if !st.hasEditor then (Except.ok noActiveEditor, st)
  else
    let selectedFormat := match args.format with
      | some f => if f ≠ "" then f else "both"
      | none => "both"
    let rawFormat := match args.format with
      | some f => f
      | none => "undefined"
    if !(["text", "html", "both"].contains selectedFormat) then
      (Except.ok (errResult ("Invalid format: \"" ++ rawFormat ++
        "\". Valid formats: text, html, both")), st)
    else
      let text := if selectedFormat = "text" || selectedFormat = "both" then
        some (String.mk st.doc) else none
      let html := if selectedFormat = "html" || selectedFormat = "both" then
        some (String.mk st.doc) else none
      (Except.ok (okWith (ResVal.textHtml text html)), st)

/-- Text spanned by a node in the flat model (node.textContent). -/
def nodeText (doc : List Char) (n : DocNode) : List Char :=
  (doc.drop n.pos).take n.size

/-- Truncated text preview: first 100 characters plus an ellipsis. -/
def previewText (t : List Char) : String :=
  String.mk (t.take 100 ++ (if t.length > 100 then "...".data else []))

def validNodeTypes : List String :=
  ["paragraph", "table", "tableRow", "tableCell",
   "bulletList", "orderedList", "listItem", "image", "blockquote"]

/-- getNodesOfType: the node-index entries of one structural type, in
document order. -/
def getNodesOfType (st : EditorState) (t : String) : List DocNode :=
  st.nodes.filter (fun n => n.name == t)

/-- cmdGetNodes: list the structural nodes of a type.  The optional
paragraph numbering marker comes from the rendering DOM and is absent in
the model. -/
def cmdGetNodes (args : Args) (st : EditorState) : Except String CmdResult × EditorState :=
  if !st.hasEditor then (Except.ok noActiveEditor, st)
  else if !strTruthy args.ntype then
    (Except.ok (errResult "Node type is required"), st)
  else
    let t := args.ntype.getD ""
    if !(validNodeTypes.contains t) then
      (Except.ok (errResult ("Invalid type: \"" ++ t ++
        "\". Valid types: paragraph, table, tableRow, tableCell, bulletList, orderedList, listItem, image, blockquote")), st)
    else
      let entries := (getNodesOfType st t).enum.map (fun p =>
        { index := p.1, ntype := t, nfrom := p.2.pos, nto := p.2.pos + p.2.size,
          text := previewText (nodeText st.doc p.2),
          textLength := (nodeText st.doc p.2).length : NodeInfo })
      (Except.ok (okWith (ResVal.nodeList entries entries.length)), st)

/-- The at-least-one-format-option guard (main.js lines 419-424): note that
color participates only through plain truthiness, so the literal false for
color does not count as a format option, while highlight/link/booleans and
the numeric fields count whenever present. -/
def hasFormatOption (a : Args) : Bool :=
  strTruthy a.fontFamily || strTruthy a.fontSize || sofTruthy a.color ||
  a.highlight.isSome || a.bold.isSome || a.italic.isSome ||
  a.underline.isSome || a.strikethrough.isSome || a.link.isSome ||
  a.lineHeight.isSome || a.indent.isSome ||
  a.spacingBefore.isSome || a.spacingAfter.isSome

def jsNumDisplay : JsNum → String
  | JsNum.num v => toString v
  | JsNum.nan => "NaN"

/-- The visual commands and applied-effect strings cmdFormatText issues, in
source order (main.js lines 433-546).  color has no removal branch: a
false color is falsy and is skipped entirely. -/
def formatTextOps (a : Args) : List Fx × List String :=
  let pFontFamily : List Fx × List String := match a.fontFamily with
    | some f => if f ≠ "" then ([Fx.setFontFamily f], ["fontFamily: " ++ f]) else ([], [])
    | none => ([], [])
  let pFontSize : List Fx × List String := match a.fontSize with
    | some f => if f ≠ "" then ([Fx.setFontSize f], ["fontSize: " ++ f]) else ([], [])
    | none => ([], [])
  let pColor : List Fx × List String := match a.color with
    | some (StrOrFalse.str s) => if s ≠ "" then ([Fx.setColor s], ["color: " ++ s]) else ([], [])
    | _ => ([], [])
  let pHighlight : List Fx × List String := match a.highlight with
    | some (StrOrFalse.str s) => if s ≠ "" then ([Fx.setHighlight s], ["highlight: " ++ s]) else ([], [])
    | some StrOrFalse.fval => ([Fx.unsetHighlight], ["highlight: removed"])
    | none => ([], [])
  let pBold : List Fx × List String := match a.bold with
    | some true => ([Fx.setBold], ["bold: true"])
    | some false => ([Fx.unsetBold], ["bold: false"])
    | none => ([], [])
  let pItalic : List Fx × List String := match a.italic with
    | some true => ([Fx.setItalic], ["italic: true"])
    | some false => ([Fx.unsetItalic], ["italic: false"])
    | none => ([], [])
  let pUnderline : List Fx × List String := match a.underline with
    | some true => ([Fx.setUnderline], ["underline: true"])
    | some false => ([Fx.unsetUnderline], ["underline: false"])
    | none => ([], [])
  let pStrike : List Fx × List String := match a.strikethrough with
    | some true => ([Fx.setStrike], ["strikethrough: true"])
    | some false => ([Fx.unsetStrike], ["strikethrough: false"])
    | none => ([], [])
  let pLink : List Fx × List String := match a.link with
    | some (StrOrFalse.str s) => if s ≠ "" then ([Fx.setLink s], ["link: " ++ s]) else ([], [])
    | some StrOrFalse.fval => ([Fx.unsetLink], ["link: removed"])
    | none => ([], [])
  let pIndent : List Fx × List String := match a.indent with
    | some (JsNum.num v) =>
      if v = 0 then ([Fx.unsetTextIndentation], ["indent: " ++ jsNumDisplay (JsNum.num v)])
      else ([Fx.setTextIndentation v], ["indent: " ++ jsNumDisplay (JsNum.num v)])
    | _ => ([], [])
  let pLineHeight : List Fx × List String := match a.lineHeight with
    | some (JsNum.num v) =>
      if v = 0 then ([Fx.unsetLineHeight], ["lineHeight: " ++ jsNumDisplay (JsNum.num v)])
      else ([Fx.setLineHeight v], ["lineHeight: " ++ jsNumDisplay (JsNum.num v)])
    | _ => ([], [])
  let pSpacingBefore : List Fx × List String := match a.spacingBefore with
    | some (JsNum.num v) => ([Fx.setSpacingBefore (v * 20)], ["spacingBefore: " ++ jsNumDisplay (JsNum.num v)])
    | _ => ([], [])
  let pSpacingAfter : List Fx × List String := match a.spacingAfter with
    | some (JsNum.num v) => ([Fx.setSpacingAfter (v * 20)], ["spacingAfter: " ++ jsNumDisplay (JsNum.num v)])
    | _ => ([], [])
  (pFontFamily.1 ++ pFontSize.1 ++ pColor.1 ++ pHighlight.1 ++ pBold.1 ++ pItalic.1 ++
     pUnderline.1 ++ pStrike.1 ++ pLink.1 ++ pIndent.1 ++ pLineHeight.1 ++
     pSpacingBefore.1 ++ pSpacingAfter.1,
   pFontFamily.2 ++ pFontSize.2 ++ pColor.2 ++ pHighlight.2 ++ pBold.2 ++ pItalic.2 ++
     pUnderline.2 ++ pStrike.2 ++ pLink.2 ++ pIndent.2 ++ pLineHeight.2 ++
     pSpacingBefore.2 ++ pSpacingAfter.2)

/-- cmdFormatText: record the previous mode, format in editing mode, then
restore the previous mode and save. -/
def cmdFormatText (args : Args) (st : EditorState) : Except String CmdResult × EditorState :=
  if !st.hasEditor then (Except.ok noActiveEditor, st)
  else if !hasFormatOption args then
    (Except.ok (errResult "At least one format option required"), st)
  else
    let previousMode := st.mode
    let st1 := setDocumentModeRaw Mode.editing st
    let st2 := applyScope args.scope st1
    let ops := formatTextOps args
    let st3 := { st2 with fx := st2.fx ++ ops.1 }
    let st4 := setDocumentModeRaw previousMode st3
    let st5 := saveDocument st4
    (Except.ok (okWith (ResVal.applied ops.2)), st5)

/-- The replacement loop of cmdReplaceText: select each match range and
insert the replacement over it, in list order. -/
def replaceMatches (replacement : String) (toReplace : List SMatch) (st : EditorState) :
    EditorState :=
  toReplace.foldl
    (fun s m => insertContentText replacement.data (selectRange m.mfrom (some m.mto) s)) st

/-- Shared tail of cmdReplaceText once the matches to replace are chosen:
set author, switch to suggesting, replace, save, back to editing. -/
def finishReplace (args : Args) (toReplace : List SMatch) (st : EditorState) :
    Except String CmdResult × EditorState :=
  let st1 := setDocumentMode Mode.suggesting (setAuthorIfProvided args.author st)
  let st2 := replaceMatches (args.replacement.getD "") toReplace st1
  let st3 := saveDocument st2
  let st4 := setDocumentMode Mode.editing st3
  (Except.ok (okWith (ResVal.replaced toReplace.length)), st4)

/-- cmdReplaceText (main.js lines 556-595).  The search and the occurrence
validation happen before the mode changes; with no occurrence the matches
are replaced in reverse (descending-position) order.  An absent replacement
is not exercised by any claim and is modelled as empty text. -/
def cmdReplaceText (args : Args) (st : EditorState) : Except String CmdResult × EditorState :=
  if !st.hasEditor then (Except.ok noActiveEditor, st)
  else if !strTruthy args.search then
    (Except.ok (errResult "Search text is required"), st)
  else
    let search := args.search.getD ""
    let ms := searchText st search
    if ms.isEmpty then
      (Except.ok (errResult ("Text not found: \"" ++ search ++ "\"")), st)
    else
      match args.occurrence with
      | some occ =>
        let idx : Int := occ - 1
        if h : idx < 0 ∨ (ms.length : Int) ≤ idx then
          (Except.ok (errResult ("Occurrence " ++ toString occ ++ " not found (only " ++
            toString ms.length ++ " matches)")), st)
        else
          finishReplace args [ms.get ⟨idx.toNat, by omega⟩] st
      | none => finishReplace args ms.reverse st

/-- Shared tail of cmdInsertContent once the insert position is resolved. -/
def finishInsertContent (args : Args) (insertPos : Nat) (st : EditorState) :
    Except String CmdResult × EditorState :=
  let st1 := setDocumentMode Mode.suggesting (setAuthorIfProvided args.author st)
  let st2 := insertAtPosition insertPos (args.content.getD "").data st1
  let st3 := saveDocument st2
  let st4 := setDocumentMode Mode.editing st3
  (Except.ok { success := true }, st4)

/-- cmdInsertContent (main.js lines 597-630): anchor-relative insertion;
an empty document needs no anchor and inserts at the start (position 1 in
engine coordinates, offset 0 of the flat text). -/
def cmdInsertContent (args : Args) (st : EditorState) : Except String CmdResult × EditorState :=
  if !st.hasEditor then (Except.ok noActiveEditor, st)
  else if !strTruthy args.content then
    (Except.ok (errResult "Content is required"), st)
  else
    let anchor := anchorOf args.position
    let insertAfter := posAfterTruthy args.position
    let isEmptyDoc := (trimChars st.doc).isEmpty
    if anchor.isNone && !isEmptyDoc then
      (Except.ok (errResult "Position anchor required: use \"after\" or \"before\" with existing text"), st)
    else if isEmptyDoc then finishInsertContent args 0 st
    else
      match findAnchor st (anchor.getD "") with
      | none =>
        (Except.ok (errResult ("Anchor text not found: \"" ++ anchor.getD "" ++ "\"")), st)
      | some m => finishInsertContent args (if insertAfter then m.mto else m.mfrom) st

/-- cmdInsertImage (main.js lines 632-663): requires a src and an anchor;
switches to editing mode before the anchor lookup and never restores the
prior mode.  The image node occupies no characters of the flat text. -/
def cmdInsertImage (args : Args) (st : EditorState) : Except String CmdResult × EditorState :=
  if !st.hasEditor then (Except.ok noActiveEditor, st)
  else if !strTruthy args.src then
    (Except.ok (errResult "Image src is required (URL or base64 data URI)"), st)
  else
    match anchorOf args.position with
    | none => (Except.ok (errResult "Position anchor (after/before) is required"), st)
    | some anchor =>
      let st1 := setDocumentMode Mode.editing st
      match findAnchor st1 anchor with
      | none =>
        (Except.ok (errResult ("Anchor text not found: \"" ++ anchor ++ "\"")), st1)
      | some m =>
        let insertPos := if posAfterTruthy args.position then m.mto else m.mfrom
        let st2 := { st1 with sel := (insertPos, insertPos) }
        let st3 := { st2 with nodes := st2.nodes ++
          [{ name := "image", pos := insertPos, size := 0 : DocNode }] }
        let st4 := saveDocument st3
        (Except.ok { success := true }, st4)

/-- cmdDeleteNode (main.js lines 665-692): select the index-th node of the
type and delete its range, tracked in suggesting mode. -/
def cmdDeleteNode (args : Args) (st : EditorState) : Except String CmdResult × EditorState :=
  if !st.hasEditor then (Except.ok noActiveEditor, st)
  else if !strTruthy args.ntype then
    (Except.ok (errResult "Node type is required"), st)
  else
    match args.index with
    | none => (Except.ok (errResult "Node index is required"), st)
    | some idxArg =>
      let t := args.ntype.getD ""
      let nodes := getNodesOfType st t
      if nodes.isEmpty then
        (Except.ok (errResult ("No " ++ t ++ " nodes found in document")), st)
      else if h : idxArg < 0 ∨ (nodes.length : Int) ≤ idxArg then
        (Except.ok (errResult ("Index " ++ toString idxArg ++ " out of range (" ++
          toString nodes.length ++ " " ++ t ++ " nodes found)")), st)
      else
        let n := nodes.get ⟨idxArg.toNat, by omega⟩
        let st1 := setDocumentMode Mode.suggesting st
        let st2 := deleteSelection { st1 with sel := (n.pos, n.pos + n.size) }
        let st3 := saveDocument st2
        let st4 := setDocumentMode Mode.editing st3
        (Except.ok (okWith (ResVal.deleted t idxArg)), st4)

/-! ### cmdInsertTable (main.js lines 694-770) -/

/-- rows fallback: data's outer length when data is present (even when it
is the empty array), else 2. -/
def tableRowsFallback : Option (List (List String)) → Nat
  | some d => d.length
  | none => 2

/-- cols fallback: the first row's length when data has a first row (any
array, even an empty one, is truthy), else 2. -/
def tableColsFallback : Option (List (List String)) → Nat
  | some (r0 :: _) => r0.length
  | _ => 2

/-- tableRows = rows || (data ? data.length : 2): a zero rows argument is
falsy and falls back. -/
def tableRowsOf (args : Args) : Nat :=
  match args.rows with
  | some r => if r ≠ 0 then r else tableRowsFallback args.data
  | none => tableRowsFallback args.data

/-- tableCols = cols || (data and data[0] ? data[0].length : 2). -/
def tableColsOf (args : Args) : Nat :=
  match args.cols with
  | some c => if c ≠ 0 then c else tableColsFallback args.data
  | none => tableColsFallback args.data

/-- Model of the external engine's insertTable command: inserts an empty
rows-by-cols table at the caret.  The node geometry is schematic (empty
cells span no document text; nominal sizes keep the cells inside the table
range); the engine's possible refusal is not modelled. -/
def engineInsertTable (rows cols : Nat) (st : EditorState) : Bool × EditorState :=
  let p := st.sel.1
  let cellNodes := (List.range rows).flatMap (fun r =>
    (List.range cols).map (fun c =>
      { name := "tableCell", pos := p + 1 + (r * cols + c) * 2, size := 2 : DocNode }))
  let rowNodes := (List.range rows).map (fun r =>
    { name := "tableRow", pos := p + 1 + r * cols * 2, size := cols * 2 : DocNode })
  let tableNode : DocNode := { name := "table", pos := p, size := rows * cols * 2 + 2 }
  (true, { st with nodes := st.nodes ++ [tableNode] ++ rowNodes ++ cellNodes })

/-- The cell-content insertions (cellIndex, content) derived from data:
rows beyond the table's row count are dropped, row-major cell indices, only
truthy (non-empty) cell strings are written. -/
def buildInsertions (data : List (List String)) (tableRows tableCols : Nat) :
    List (Nat × String) :=
  (List.range (min data.length tableRows)).flatMap (fun row =>
    match data.get? row with
    | some rowData =>
      (List.range tableCols).filterMap (fun col =>
        match rowData.get? col with
        | some content => if content ≠ "" then some (row * tableCols + col, content) else none
        | none => none)
    | none => [])

/-- Locate the newly created table: the first table at or after
insertPos - 5, falling back to the last table node. -/
def locateNewTable (st : EditorState) (insertPos : Option Nat) : Option DocNode :=
  let tablesAfter := getNodesOfType st "table"
  match tablesAfter.find? (fun tnode =>
      ((insertPos.getD 0 : Int) - 5) ≤ (tnode.pos : Int)) with
  | some tnode => some tnode
  | none => tablesAfter.getLast?

/-- Write the cell contents in reverse cell-index order (so the captured
cell positions stay valid): caret two positions into the cell, insert. -/
def populateCells (tableCells : List DocNode) (insertions : List (Nat × String))
    (st : EditorState) : EditorState :=
  insertions.reverse.foldl (fun s ins =>
    match tableCells.get? ins.1 with
    | some cell =>
      insertContentText ins.2.data { s with sel := (cell.pos + 2, cell.pos + 2) }
    | none => s) st

/-- The data-population pass: locate the newly created table, collect its
cells, and write the data contents in reverse cell-index order. -/
def populateTable (args : Args) (tableRows tableCols : Nat) (insertPos : Option Nat)
    (st : EditorState) : EditorState :=
  match args.data with
  | none => st
  | some data =>
    match locateNewTable st insertPos with
    | none => st
    | some tbl =>
      let tableEnd := tbl.pos + tbl.size
      let tableCells := (getNodesOfType st "tableCell").filter
        (fun cell => tbl.pos ≤ cell.pos && cell.pos < tableEnd)
      populateCells tableCells (buildInsertions data tableRows tableCols) st

/-- Shared tail of cmdInsertTable after the optional anchor is resolved. -/
def finishInsertTable (args : Args) (tableRows tableCols : Nat) (insertPos : Option Nat)
    (st : EditorState) : Except String CmdResult × EditorState :=
  let r := engineInsertTable tableRows tableCols st
  if !r.1 then (Except.ok (errResult "Failed to insert table"), r.2)
  else
    let st2 := populateTable args tableRows tableCols insertPos r.2
    let st3 := saveDocument st2
    let st4 := setDocumentMode Mode.editing st3
    (Except.ok (okWith (ResVal.tableDims tableRows tableCols)), st4)

/-- cmdInsertTable: infer dimensions, switch to suggesting mode, then
resolve the optional anchor (note: the anchor lookup happens after the mode
switch, and its failure path returns with the mode still switched). -/
def cmdInsertTable (args : Args) (st : EditorState) : Except String CmdResult × EditorState :=
  if !st.hasEditor then (Except.ok noActiveEditor, st)
  else
    let tableRows := tableRowsOf args
    let tableCols := tableColsOf args
    let st1 := setDocumentMode Mode.suggesting (setAuthorIfProvided args.author st)
    match anchorOf args.position with
    | some anchor =>
      match findAnchor st1 anchor with
      | none =>
        (Except.ok (errResult ("Anchor text not found: \"" ++ anchor ++ "\"")), st1)
      | some m =>
        let insertPos := if posAfterTruthy args.position then m.mto else m.mfrom
        finishInsertTable args tableRows tableCols (some insertPos)
          { st1 with sel := (insertPos, insertPos) }
    | none => finishInsertTable args tableRows tableCols none st1

/-- cmdUndo: invoke the engine's native undo; its outcome is the state's
undoOk answer (the engine's history itself is opaque); save only on
success; a no-op reports success false with no error message. -/
def cmdUndo (_args : Args) (st : EditorState) : Except String CmdResult × EditorState :=
  if !st.hasEditor then (Except.ok noActiveEditor, st)
  else if st.undoOk then (Except.ok { success := true }, saveDocument st)
  else (Except.ok { success := false }, st)

/-- cmdRedo: same shape as cmdUndo with the engine's redo answer. -/
def cmdRedo (_args : Args) (st : EditorState) : Except String CmdResult × EditorState :=
  if !st.hasEditor then (Except.ok noActiveEditor, st)
  else if st.redoOk then (Except.ok { success := true }, saveDocument st)
  else (Except.ok { success := false }, st)

/-! ### cmdInsertTableOfContents (main.js lines 811-970) -/

/-- A validated TOC entry with its resolved text and bookmark identifier. -/
structure ResolvedEntry where
  level : Int
  efrom : Nat
  eto : Nat
  text : List Char
  bookmarkName : String
  deriving DecidableEq, Repr

/-- doc.textBetween(from, to) in the flat model. -/
def textBetween (doc : List Char) (f t : Nat) : List Char :=
  (doc.drop f).take (t - f)

/-- Outcome of the entry-validation loop: a validated list, a returned
failure result, or a thrown JS exception. -/
inductive ResolveOutcome
  | ok (entries : List ResolvedEntry)
  | fail (msg : String)
  | thrown (msg : String)
  deriving DecidableEq, Repr

/-- The validation loop over the entries (main.js lines 824-847): each
entry's level must be 1-6 (a zero level is falsy and fails the
required-integers guard first), the range must be within the document and
non-inverted, and the range's trimmed text must be non-empty.  Destructuring
a null entry throws a TypeError.  The DOM numbering marker is absent in the
model, so the text is the range's trimmed text. -/
def resolveEntries (doc : List Char) (timestamp : Nat) :
    Nat → List (Option TocEntryArg) → ResolveOutcome
  | _, [] => ResolveOutcome.ok []
  | i, e :: rest =>
    match e with
    | none => ResolveOutcome.thrown "Cannot destructure property level of null entry"
    | some en =>
      if en.level = 0 then
        ResolveOutcome.fail ("Entry " ++ toString i ++ ": level, from, and to are required integers")
      else if en.level < 1 || 6 < en.level then
        ResolveOutcome.fail ("Entry " ++ toString i ++ ": level must be 1-6, got " ++ toString en.level)
      else if en.eto ≤ en.efrom || en.efrom < 0 || (doc.length : Int) < en.eto then
        ResolveOutcome.fail ("Entry " ++ toString i ++ ": invalid range from=" ++ toString en.efrom ++
          " to=" ++ toString en.eto ++ " (doc size: " ++ toString doc.length ++ ")")
      else
        let text := trimChars (textBetween doc en.efrom.toNat en.eto.toNat)
        if text.isEmpty then
          ResolveOutcome.fail ("Entry " ++ toString i ++ ": no text found at range " ++
            toString en.efrom ++ "-" ++ toString en.eto)
        else
          match resolveEntries doc timestamp (i + 1) rest with
          | ResolveOutcome.ok tail =>
            let re : ResolvedEntry :=
              { level := en.level, efrom := en.efrom.toNat, eto := en.eto.toNat,
                text := text, bookmarkName := mkBookmarkName i timestamp }
            ResolveOutcome.ok (re :: tail)
          | other => other

/-- tocTitle = title !== undefined ? title : the default. -/
def tocTitleOf (title : Option String) : String := title.getD "Table of Contents"

/-- The texts of the TOC node's paragraphs: the (truthy) title paragraph
followed by one paragraph per entry. -/
def tocParagraphTexts (resolved : List ResolvedEntry) (title : Option String) :
    List (List Char) :=
  (if tocTitleOf title ≠ "" then [(tocTitleOf title).data] else []) ++
    resolved.map (fun e => e.text)

/-- Insertion into a descending-by-key list (model of Array.sort with a
b.from - a.from comparator; structural so concrete runs reduce). -/
def insertSortedDesc (key : ResolvedEntry → Nat) (x : ResolvedEntry) :
    List ResolvedEntry → List ResolvedEntry
  | [] => [x]
  | y :: ys => if key y ≤ key x then x :: y :: ys else y :: insertSortedDesc key x ys

def sortByFromDesc (l : List ResolvedEntry) : List ResolvedEntry :=
  l.foldr (insertSortedDesc (fun e => e.efrom)) []

/-- Insertion sort of (pos, size) deletions by descending position. -/
def insertDelDesc (x : Nat × Nat) : List (Nat × Nat) → List (Nat × Nat)
  | [] => [x]
  | y :: ys => if y.1 ≤ x.1 then x :: y :: ys else y :: insertDelDesc x ys

def sortDelsDesc (l : List (Nat × Nat)) : List (Nat × Nat) :=
  l.foldr insertDelDesc []

/-- The single atomic transaction (main.js lines 864-906): bookmark
start/end node pairs inside each heading range, processed in descending
from order, then the TOC node at the insertion position mapped through the
bookmark insertions.  Bookmark nodes are zero-width in the flat text, so
the mapped position equals the pre-resolved one; the TOC node contributes
its paragraphs' text. -/
def applyTocTransaction (resolved : List ResolvedEntry) (title : Option String)
    (insertPos : Nat) (st : EditorState) : EditorState :=
  let sorted := sortByFromDesc resolved
  let bmNodes := sorted.flatMap (fun e =>
    [{ name := "bookmarkEnd", pos := e.eto - 1, size := 0, attrId := some e.bookmarkName : DocNode },
     { name := "bookmarkStart", pos := e.efrom + 1, size := 0,
       attrName := some e.bookmarkName, attrId := some e.bookmarkName : DocNode }])
  let paras := tocParagraphTexts resolved title
  let tocText := paras.flatten
  let tocNode : DocNode :=
    { name := "tableOfContents", pos := insertPos,
      size := tocText.length, childSizes := paras.map (fun p => p.length) }
  { st with doc := insertTextAt st.doc insertPos tocText,
            nodes := shiftNodesAfterEdit st.nodes insertPos insertPos tocText.length ++
              bmNodes ++ [tocNode] }

/-- Is per-paragraph bold styling on (style?.bold !== false)? -/
def styleBoldOn : Option StyleArg → Bool
  | some s => s.bold ≠ some false
  | none => true

/-- style?.color || black. -/
def styleColorOf : Option StyleArg → String
  | some s => match s.color with
    | some c => if c ≠ "" then c else "#000000"
    | none => "#000000"
  | none => "#000000"

/-- The truthy style?.fontFamily, if any. -/
def styleFontFamilyOf : Option StyleArg → Option String
  | some s => match s.fontFamily with
    | some f => if f ≠ "" then some f else none
    | none => none
  | none => none

/-- The truthy style?.fontSize, if any. -/
def styleFontSizeOf : Option StyleArg → Option String
  | some s => match s.fontSize with
    | some f => if f ≠ "" then some f else none
    | none => none
  | none => none

/-- Decimal value of a digit run. -/
def digitsToNat (cs : List Char) : Nat :=
  cs.foldl (fun acc c => acc * 10 + (c.toNat - 48)) 0

/-- The title font size: the fontSize string must match digits, an optional
dot-digits fraction, and a pt/px unit; the title gets the size plus two.
(JS drops an all-zero fraction when rendering the number; the model keeps
the fraction verbatim — no claim depends on this string.) -/
def titleSizeOf (s : String) : Option String :=
  let cs := s.data
  let intPart := cs.takeWhile Char.isDigit
  let rest1 := cs.dropWhile Char.isDigit
  if intPart.isEmpty then none
  else
    match rest1 with
    | '.' :: r2 =>
      let frac := r2.takeWhile Char.isDigit
      let rest2 := r2.dropWhile Char.isDigit
      if frac.isEmpty then none
      else if rest2 = "pt".data || rest2 = "px".data then
        some (String.mk (natToDigits (digitsToNat intPart + 2) ++ '.' :: (frac ++ rest2)))
      else none
    | _ =>
      if rest1 = "pt".data || rest1 = "px".data then
        some (String.mk (natToDigits (digitsToNat intPart + 2) ++ rest1))
      else none

/-- The visual commands of the post-transaction styling pass (main.js lines
908-957): per-paragraph base styling (bold unless disabled, color, optional
font family/size), a larger title size when the fontSize parses, and
per-entry indentation scaled by the heading level.  The per-paragraph
selection bookkeeping only feeds these visual commands and is not modelled
separately. -/
def tocStylingFx (resolved : List ResolvedEntry) (title : Option String)
    (style : Option StyleArg) : List Fx :=
  let t := tocTitleOf title
  let nParas := (if t ≠ "" then 1 else 0) + resolved.length
  let base := (List.range nParas).flatMap (fun _ =>
    (if styleBoldOn style then [Fx.setBold] else []) ++
    [Fx.setColor (styleColorOf style)] ++
    (match styleFontFamilyOf style with
      | some f => [Fx.setFontFamily f]
      | none => []) ++
    (match styleFontSizeOf style with
      | some f => [Fx.setFontSize f]
      | none => []))
  let titleFx := if t ≠ "" then
      match styleFontSizeOf style with
      | some fsz =>
        match titleSizeOf fsz with
        | some ts => [Fx.setFontSize ts]
        | none => []
      | none => []
    else []
  let indentFx := resolved.map (fun e => Fx.setTextIndentation (e.level * 36))
  base ++ titleFx ++ indentFx

/-- Shared tail of cmdInsertTableOfContents once the entries are validated
and the insertion position resolved: author, suggesting mode, the atomic
transaction, then the styling pass in editing mode, save, and a final
switch to editing mode. -/
def finishInsertToc (args : Args) (resolved : List ResolvedEntry) (insertPos : Nat)
    (st : EditorState) : Except String CmdResult × EditorState :=
  let st1 := setDocumentMode Mode.suggesting (setAuthorIfProvided args.author st)
  let st2 := applyTocTransaction resolved args.title insertPos st1
  let st3 := setDocumentMode Mode.editing st2
  let st4 := { st3 with fx := st3.fx ++ tocStylingFx resolved args.title args.style }
  let st5 := saveDocument st4
  let st6 := setDocumentMode Mode.editing st5
  (Except.ok (okWith (ResVal.tocEntries resolved.length (resolved.map (fun e =>
    { level := e.level, text := String.mk e.text, bookmark := e.bookmarkName })))), st6)

/-- cmdInsertTableOfContents: validate the entries (reading Date.now() once
as the shared bookmark timestamp), resolve the insertion anchor before any
mutation, then run the atomic transaction and styling pass. -/
def cmdInsertTableOfContents (args : Args) (st : EditorState) :
    Except String CmdResult × EditorState :=
  if !st.hasEditor then (Except.ok noActiveEditor, st)
  else
    match args.entries with
    | none =>
      (Except.ok (errResult "entries is required: [{level: 1-6, from: N, to: M}, ...]"), st)
    | some entries =>
      if entries.isEmpty then
        (Except.ok (errResult "entries is required: [{level: 1-6, from: N, to: M}, ...]"), st)
      else
        match resolveEntries st.doc st.now 0 entries with
        | ResolveOutcome.thrown msg => (Except.error msg, st)
        | ResolveOutcome.fail msg => (Except.ok (errResult msg), st)
        | ResolveOutcome.ok resolved =>
          match anchorOf args.position with
          | some a =>
            match findAnchor st a with
            | none =>
              (Except.ok (errResult ("Anchor text not found: \"" ++ a ++ "\"")), st)
            | some m =>
              finishInsertToc args resolved
                (if posAfterTruthy args.position then m.mto else m.mfrom) st
          | none => finishInsertToc args resolved 0 st

/-- String.startsWith, spelled over the character lists so that it
computes by structural recursion. -/
def strStarts (s p : String) : Bool := p.data.isPrefixOf s.data

/-- Does a bookmark attribute carry the TOC-reserved prefix? -/
def attrStartsWithToc : Option String → Bool
  | some s => strStarts s "_Toc_"
  | none => false

/-- Delete the half-open range [f, t) of the document text. -/
def deleteRange (f t : Nat) (st : EditorState) : EditorState :=
  { st with doc := replaceRange st.doc f t [],
            nodes := shiftNodesAfterEdit st.nodes f t 0 }

/-- cmdDeleteTableOfContents (main.js lines 976-1015): find the first TOC
node (and, when asked, every TOC-prefixed bookmark), delete all of them in
one transaction sorted by descending position. -/
def cmdDeleteTableOfContents (args : Args) (st : EditorState) :
    Except String CmdResult × EditorState :=
  if !st.hasEditor then (Except.ok noActiveEditor, st)
  else
    let tocFirst := (getNodesOfType st "tableOfContents").head?
    let bookmarks := if args.removeBookmarks then
        st.nodes.filter (fun n =>
          (n.name == "bookmarkStart" || n.name == "bookmarkEnd") &&
          (attrStartsWithToc n.attrName || attrStartsWithToc n.attrId))
      else []
    match tocFirst with
    | none => (Except.ok (errResult "No table of contents found in document"), st)
    | some tocNode =>
      let deletions := sortDelsDesc ((tocNode.pos, tocNode.size) ::
          bookmarks.map (fun b => (b.pos, b.size)))
      let st1 := deletions.foldl (fun s d => deleteRange d.1 (d.1 + d.2) s) st
      let st2 := saveDocument st1
      (Except.ok { success := true }, st2)

/-- The fallback chain value || default for strings. -/
def strOr : Option String → String → String
  | some s, d => if s ≠ "" then s else d
  | none, d => d

/-- cmdAddComment (main.js lines 1017-1047): ordinal lookup via findMatch,
select the match, attach the comment with the resolved attribution (the
external engine accepts it; refusal is not modelled). -/
def cmdAddComment (args : Args) (st : EditorState) : Except String CmdResult × EditorState :=
  if !st.hasEditor then (Except.ok noActiveEditor, st)
  else if !strTruthy args.search then
    (Except.ok (errResult "Search text is required"), st)
  else if !strTruthy args.comment then
    (Except.ok (errResult "Comment text is required"), st)
  else
    match findMatch st (args.search.getD "") args.occurrence with
    | Except.error searchError => (Except.ok (errResult searchError), st)
    | Except.ok (m, _) =>
      let st1 := selectRange m.mfrom (some m.mto) st
      let authorName := strOr (args.author.bind (fun a => a.name)) (strOr (some st.user.name) "Claude")
      let authorEmail := strOr (args.author.bind (fun a => a.email))
        (strOr (some st.user.email) "claude@anthropic.com")
      let st2 := pushFx (Fx.addComment (args.comment.getD "") authorName authorEmail) st1
      let st3 := saveDocument st2
      (Except.ok (okWith (ResVal.commentedText m.mtext)), st3)

/-! ## Command dispatch (main.js lines 227-254) -/

/-- The command registry: name to handler, exactly the COMMANDS table. -/
def COMMANDS : List (String × (Args → EditorState → Except String CmdResult × EditorState)) :=
  [("getText", cmdGetText),
   ("getNodes", cmdGetNodes),
   ("replaceText", cmdReplaceText),
   ("insertContent", cmdInsertContent),
   ("formatText", cmdFormatText),
   ("insertImage", cmdInsertImage),
   ("deleteNode", cmdDeleteNode),
   ("insertTable", cmdInsertTable),
   ("addComment", cmdAddComment),
   ("insertTableOfContents", cmdInsertTableOfContents),
   ("deleteTableOfContents", cmdDeleteTableOfContents),
   ("undo", cmdUndo),
   ("redo", cmdRedo)]

/-- executeCommand: look the handler up by name; an unknown name yields the
failure result with the exact message; a handler exception is caught and
converted to a failure result carrying the exception's message.  The
function is total: no error escapes the dispatch boundary. -/
def executeCommand (command : String) (args : Args) (st : EditorState) :
    CmdResult × EditorState :=
  match COMMANDS.lookup command with
  | none => (errResult ("Unknown command: " ++ command), st)
  | some handler =>
    match handler args st with
    | (Except.ok r, st1) => (r, st1)
    | (Except.error msg, st1) => (errResult msg, st1)

/-! ## Host-side provider model (src/src/superdocEditorProvider.ts) -/

/-- The host's document object: the current bytes and the wall-clock time
of the last self-initiated write (SuperDocDocument). -/
structure HostDoc where
  data : List Nat := []
  lastSaveTime : Nat := 0
  deriving DecidableEq, Repr

/-- SuperDocDocument.save (lines 412-415): record the write time and write
the bytes to the backing file (the file itself lives outside this state). -/
def hostDocSave (now : Nat) (d : HostDoc) : HostDoc :=
  { d with lastSaveTime := now }

/-- The file watcher's change callback (setupFileWatcher lines 88-102):
ignore the event when it falls within 1000 ms of the last recorded save,
otherwise re-read the file and push exactly one reload message carrying the
new bytes.  JS computes Date.now() - lastSaveTime < 1000; a clock running
backwards gives a negative difference in JS and a truncated zero here, and
both suppress. -/
def onFileChange (now : Nat) (diskBytes : List Nat) (d : HostDoc) :
    HostDoc × Option (List Nat) :=
  if now - d.lastSaveTime < 1000 then (d, none)
  else ({ d with data := diskBytes }, some diskBytes)

/-- A host-side command result as written back to the side-channel file. -/
structure HostResult where
  id : String
  success : Bool
  result : Option String := none
  error : Option String := none
  deriving DecidableEq, Repr

/-- JSON.stringify of a HostResult (rendering shape is canonical; no claim
parses it back). -/
def serializeResult (r : HostResult) : String :=
  "\x7b\"id\":\"" ++ r.id ++ "\",\"success\":" ++ (if r.success then "true" else "false") ++
    (match r.result with
      | some s => ",\"result\":" ++ s
      | none => "") ++
    (match r.error with
      | some e => ",\"error\":\"" ++ e ++ "\""
      | none => "") ++ "\x7d"

/-- The bridge's mutable state: the pending command table (id to response
file path, a Map) and the side-channel file system (path to content). -/
structure BridgeState where
  pendingCommands : List (String × String) := []
  files : String → Option String := fun _ => none

/-- fs.writeFileSync: overwrite or create the file at the path. -/
def writeFileSync (files : String → Option String) (path content : String) :
    String → Option String :=
  fun q => if q = path then some content else files q

/-- Map.delete on the pending command table (at most one entry per id). -/
def eraseKey (l : List (String × String)) (k : String) : List (String × String) :=
  l.filter (fun kv => kv.1 != k)

/-- writeCommandResponse (lines 300-310): look the id up in the pending
command table; with no entry, log and do nothing; otherwise overwrite that
entry's file with the serialized result and remove the entry. -/
def writeCommandResponse (cmdId : String) (result : HostResult) (st : BridgeState) :
    BridgeState :=
  match st.pendingCommands.lookup cmdId with
  | none => st
  | some cmdFilePath =>
    { pendingCommands := eraseKey st.pendingCommands cmdId,
      files := writeFileSync st.files cmdFilePath (serializeResult result) }

/-! ### Image resolution (convertImageToBase64 / fetchImageAsBase64) -/

/-- An HTTP response for the model network: status, optional redirect
location, optional content type, body bytes. -/
structure HttpResp where
  status : Nat
  location : Option String := none
  contentType : Option String := none
  body : List Nat := []
  deriving DecidableEq, Repr

def base64Table : List Char :=
  "ABCDEFGHIJKLMNOPQRSTUVWXYZabcdefghijklmnopqrstuvwxyz0123456789+/".data

def b64char (n : Nat) : Char := base64Table.getD n 'A'

/-- Standard base64 of a byte list (Buffer.toString in base64). -/
def b64encode : List Nat → List Char
  | [] => []
  | [a] => [b64char (a / 4), b64char (a % 4 * 16), '=', '=']
  | [a, b] => [b64char (a / 4), b64char (a % 4 * 16 + b / 16), b64char (b % 16 * 4), '=']
  | a :: b :: c :: rest =>
    b64char (a / 4) :: b64char (a % 4 * 16 + b / 16) :: b64char (b % 16 * 4 + c / 64) ::
      b64char (c % 64) :: b64encode rest

/-- A data URI from a content type and body bytes. -/
def toDataUri (contentType : String) (body : List Nat) : String :=
  "data:" ++ contentType ++ ";base64," ++ String.mk (b64encode body)

/-- fetchImageAsBase64 (lines 245-275) over a model network: a 301/302
response with a location recurses on the redirect target (the code bounds
this recursion by nothing; the fuel only keeps the model total), a 301/302
without a location falls through to the non-200 failure, a non-200 status
fails, and a 200 response yields the data URI with the content type
defaulting to image/png. -/
def fetchImageAsBase64 (net : List (String × HttpResp)) : Nat → String → Except String String
  | 0, _ => Except.error "redirect recursion out of model fuel"
  | fuel + 1, url =>
    match net.lookup url with
    | none => Except.error "network error"
    | some resp =>
      if resp.status = 301 || resp.status = 302 then
        match resp.location with
        | some redirectUrl => fetchImageAsBase64 net fuel redirectUrl
        | none => Except.error ("HTTP " ++ toString resp.status ++ ": Failed to fetch image")
      else if resp.status ≠ 200 then
        Except.error ("HTTP " ++ toString resp.status ++ ": Failed to fetch image")
      else
        Except.ok (toDataUri (resp.contentType.getD "image/png") resp.body)

/-- path.extname: the suffix from the last dot, or empty. -/
def extname (s : String) : String :=
  let rev := s.data.reverse
  let pre := rev.takeWhile (fun c => c != '.')
  if pre.length = rev.length then "" else String.mk ('.' :: pre.reverse)

/-- getMimeType (lines 280-292). -/
def getMimeType (ext : String) : String :=
  ([(".png", "image/png"), (".jpg", "image/jpeg"), (".jpeg", "image/jpeg"),
    (".gif", "image/gif"), (".webp", "image/webp"), (".svg", "image/svg+xml"),
    (".bmp", "image/bmp"), (".ico", "image/x-icon")].lookup ext).getD "image/png"

/-- convertImageToBase64 (lines 220-240): http/https URLs are fetched;
otherwise the source is a file path, resolved against the document's
directory when relative (path.join modelled as directory slash path;
posix absolute paths start with a slash), read from the model file system,
and encoded with the extension's MIME type. -/
def convertImageToBase64 (fsFiles : List (String × List Nat))
    (net : List (String × HttpResp)) (fuel : Nat) (docDir : String) (src : String) :
    Except String String :=
  if strStarts src "http://" || strStarts src "https://" then
    fetchImageAsBase64 net fuel src
  else
    let filePath := if strStarts src "/" then src else docDir ++ "/" ++ src
    match fsFiles.lookup filePath with
    | none => Except.error ("Image file not found: " ++ filePath)
    | some buffer => Except.ok (toDataUri (getMimeType (extname filePath).toLower) buffer)

/-- The Bridge's insertImage preprocessing (processCommandFile lines
187-207): a source already in data-URI form is forwarded untouched; any
other source is resolved to a data URI before the engine sees it. -/
def preprocessImageSrc (fsFiles : List (String × List Nat))
    (net : List (String × HttpResp)) (fuel : Nat) (docDir : String) (src : String) :
    Except String String :=
  if strStarts src "data:" then Except.ok src
  else convertImageToBase64 fsFiles net fuel docDir src

/-! ## Lemma development -/

/-! ### Basic lemmas about the text utilities -/

theorem isPrefixOf_eq_append {pat l : List Char} (h : pat.isPrefixOf l = true) :
    l = pat ++ l.drop pat.length := by
  induction pat generalizing l with
  | nil => simp
  | cons a as ih =>
    cases l with
    | nil => simp [List.isPrefixOf] at h
    | cons b bs =>
      simp only [List.isPrefixOf, Bool.and_eq_true, beq_iff_eq] at h
      obtain ⟨rfl, h2⟩ := h
      simpa using ih h2

theorem isPrefixOf_length_le {pat l : List Char} (h : pat.isPrefixOf l = true) :
    pat.length ≤ l.length := by
  conv_rhs => rw [isPrefixOf_eq_append h]
  simp

theorem take_append_len (xs rest : List Char) (p : Nat) :
    (xs ++ rest).take (xs.length + p) = xs ++ rest.take p := by
  induction xs with
  | nil => simp
  | cons x xs ih => simp [Nat.succ_add, ih]

theorem drop_append_len (xs rest : List Char) (p : Nat) :
    (xs ++ rest).drop (xs.length + p) = rest.drop p := by
  induction xs with
  | nil => simp
  | cons x xs ih => simp [Nat.succ_add, ih]

theorem replaceRange_append (front rest repl : List Char) (p q : Nat) :
    replaceRange (front ++ rest) (front.length + p) (front.length + q) repl
      = front ++ replaceRange rest p q repl := by
  simp [replaceRange, take_append_len, drop_append_len]

/-- Folding replacements over positions shifted past a fixed front leaves the
front untouched. -/
theorem foldr_replaceRange_shift (repl : List Char) (L : Nat) :
    ∀ (ps : List Nat) (front rest : List Char),
      (ps.map (· + front.length)).foldr
          (fun p acc => replaceRange acc p (p + L) repl) (front ++ rest)
        = front ++ ps.foldr (fun p acc => replaceRange acc p (p + L) repl) rest := by
  intro ps
  induction ps with
  | nil => intro front rest; simp
  | cons p ps ih =>
    intro front rest
    simp only [List.map_cons, List.foldr_cons, ih]
    have h1 : p + front.length = front.length + p := Nat.add_comm _ _
    have h2 : front.length + p + L = front.length + (p + L) := by omega
    rw [h1, h2, replaceRange_append]

/-- Core replacement lemma: replacing the matches back-to-front (descending
position order, as the handler iterates) produces exactly the reference
all-occurrence replacement. -/
theorem foldr_occPosF_eq_replAllF (pat repl : List Char) (hp : pat ≠ []) :
    ∀ (fuel : Nat) (doc : List Char),
      (occPosF pat fuel doc).foldr
          (fun p acc => replaceRange acc p (p + pat.length) repl) doc
        = replAllF pat repl fuel doc := by
  intro fuel
  induction fuel with
  | zero => intro doc; simp [occPosF, replAllF]
  | succ fuel ih =>
    intro doc
    cases doc with
    | nil => simp [occPosF, replAllF]
    | cons d ds =>
      by_cases hpre : pat.isPrefixOf (d :: ds) = true
      · have hL : 1 ≤ pat.length := by
          cases pat with
          | nil => exact absurd rfl hp
          | cons c cs => simp
        have hdecomp : d :: ds = pat ++ (ds.drop (pat.length - 1)) := by
          have := isPrefixOf_eq_append hpre
          rwa [show (d :: ds).drop pat.length = ds.drop (pat.length - 1) by
            cases pat with
            | nil => exact absurd rfl hp
            | cons c cs => simp] at this
        simp only [occPosF, replAllF, hpre, if_true, List.foldr_cons]
        conv_lhs => rw [hdecomp]
        rw [show (fun x => x + pat.length) = (· + pat.length) from rfl,
          foldr_replaceRange_shift repl pat.length _ pat (ds.drop (pat.length - 1)),
          ih]
        show replaceRange (pat ++ replAllF pat repl fuel (ds.drop (pat.length - 1)))
            0 (0 + pat.length) repl = _
        simp [replaceRange, Nat.zero_add, List.drop_left]
      · simp only [occPosF, replAllF, hpre, if_false, Bool.false_eq_true]
        have := foldr_replaceRange_shift repl pat.length
          (occPosF pat fuel ds) [d] ds
        simp only [List.length_cons, List.length_nil, List.singleton_append] at this
        rw [show (fun x => x + 1) = (· + 1) from rfl, this, ih]

theorem joinSep_cons_cons (sep : List Char) (d : Char) (s0 : List Char)
    (rest : List (List Char)) :
    joinSep sep ((d :: s0) :: rest) = d :: joinSep sep (s0 :: rest) := by
  cases rest <;> simp [joinSep]

/-- Structure of the reference replacement: the document splits into the
segments around/between the matches, and the replacement result is the same
segments joined with the replacement text instead of the search text. -/
theorem replAllF_decomp (pat repl : List Char) (hp : pat ≠ []) :
    ∀ (fuel : Nat) (doc : List Char),
      ∃ segs : List (List Char), segs ≠ [] ∧
        segs.length = (occPosF pat fuel doc).length + 1 ∧
        doc = joinSep pat segs ∧
        replAllF pat repl fuel doc = joinSep repl segs := by
  intro fuel
  induction fuel with
  | zero =>
    intro doc
    exact ⟨[doc], by simp, by simp [occPosF], by simp [joinSep], by simp [replAllF, joinSep]⟩
  | succ fuel ih =>
    intro doc
    cases doc with
    | nil =>
      exact ⟨[[]], by simp, by simp [occPosF], by simp [joinSep], by simp [replAllF, joinSep]⟩
    | cons d ds =>
      by_cases hpre : pat.isPrefixOf (d :: ds) = true
      · obtain ⟨segs, hne, hlen, hdoc, hrep⟩ := ih (ds.drop (pat.length - 1))
        refine ⟨[] :: segs, by simp, ?_, ?_, ?_⟩
        · simp [occPosF, hpre, hlen]
        · have hdecomp : d :: ds = pat ++ (ds.drop (pat.length - 1)) := by
            have := isPrefixOf_eq_append hpre
            rwa [show (d :: ds).drop pat.length = ds.drop (pat.length - 1) by
              cases pat with
              | nil => exact absurd rfl hp
              | cons c cs => simp] at this
          cases segs with
          | nil => exact absurd rfl hne
          | cons s0 rest => rw [hdecomp, hdoc]; simp [joinSep]
        · simp only [replAllF, hpre, if_true, hrep]
          cases segs with
          | nil => exact absurd rfl hne
          | cons s0 rest => simp [joinSep]
      · obtain ⟨segs, hne, hlen, hdoc, hrep⟩ := ih ds
        cases segs with
        | nil => exact absurd rfl hne
        | cons s0 rest =>
          refine ⟨(d :: s0) :: rest, by simp, ?_, ?_, ?_⟩
          · simpa [occPosF, hpre] using hlen
          · rw [joinSep_cons_cons, ← hdoc]
          · simp only [replAllF, hpre, if_false, Bool.false_eq_true, hrep,
              joinSep_cons_cons]

/-- The match positions are strictly increasing: the engine reports matches
in document order. -/
theorem occPosF_sorted (pat : List Char) (hp : pat ≠ []) :
    ∀ (fuel : Nat) (doc : List Char),
      (occPosF pat fuel doc).Pairwise (· < ·) := by
  intro fuel
  induction fuel with
  | zero => intro doc; simp [occPosF]
  | succ fuel ih =>
    intro doc
    cases doc with
    | nil => simp [occPosF]
    | cons d ds =>
      have hL : 1 ≤ pat.length := by
        cases pat with
        | nil => exact absurd rfl hp
        | cons c cs => simp
      by_cases hpre : pat.isPrefixOf (d :: ds) = true
      · simp only [occPosF, hpre, if_true]
        constructor
        · intro b hb
          simp only [List.mem_map] at hb
          obtain ⟨a, _, rfl⟩ := hb
          omega
        · rw [List.pairwise_map]
          exact (ih _).imp (by omega)
      · simp only [occPosF, hpre, if_false, Bool.false_eq_true]
        rw [List.pairwise_map]
        exact (ih _).imp (by omega)

theorem natToDigitsF_stable :
    ∀ (f g n : Nat), n < f → n < g → natToDigitsF f n = natToDigitsF g n := by
  intro f
  induction f with
  | zero => intro g n hf; omega
  | succ f ih =>
    intro g n hf hg
    cases g with
    | zero => omega
    | succ g =>
      by_cases h10 : n < 10
      · simp [natToDigitsF, h10]
      · have hd : n / 10 < n := Nat.div_lt_self (by omega) (by omega)
        simp only [natToDigitsF, h10, if_false]
        rw [ih g (n / 10) (by omega) (by omega)]

theorem natToDigits_eq (n : Nat) :
    natToDigits n =
      if n < 10 then [Nat.digitChar n]
      else natToDigits (n / 10) ++ [Nat.digitChar (n % 10)] := by
  by_cases h10 : n < 10
  · simp [natToDigits, natToDigitsF, h10]
  · have hd : n / 10 < n := Nat.div_lt_self (by omega) (by omega)
    rw [if_neg h10]
    show natToDigitsF (n + 1) n = _
    rw [natToDigitsF, if_neg h10]
    congr 1
    show natToDigitsF n (n / 10) = natToDigitsF (n / 10 + 1) (n / 10)
    exact natToDigitsF_stable n (n / 10 + 1) (n / 10) (by omega) (by omega)

theorem natToDigits_ne_nil (n : Nat) : natToDigits n ≠ [] := by
  rw [natToDigits_eq]
  split <;> simp

theorem digitChar_below_ten_inj :
    ∀ a < 10, ∀ b < 10, Nat.digitChar a = Nat.digitChar b → a = b := by decide

theorem digitChar_below_ten_ne_underscore :
    ∀ a < 10, Nat.digitChar a ≠ '_' := by decide

theorem natToDigits_no_underscore (n : Nat) : '_' ∉ natToDigits n := by
  induction n using Nat.strong_induction_on with
  | _ n ih =>
    rw [natToDigits_eq]
    by_cases h10 : n < 10
    · simp only [h10, if_true, List.mem_singleton]
      exact fun h => digitChar_below_ten_ne_underscore n h10 h.symm
    · have hd : n / 10 < n := Nat.div_lt_self (by omega) (by omega)
      simp only [h10, if_false, List.mem_append, List.mem_singleton]
      rintro (h | h)
      · exact ih (n / 10) hd h
      · exact digitChar_below_ten_ne_underscore (n % 10) (Nat.mod_lt _ (by omega)) h.symm

theorem natToDigits_injective :
    ∀ (a b : Nat), natToDigits a = natToDigits b → a = b := by
  intro a
  induction a using Nat.strong_induction_on with
  | _ a ih =>
    intro b hab
    rw [natToDigits_eq a, natToDigits_eq b] at hab
    by_cases ha : a < 10 <;> by_cases hb : b < 10
    · simp only [ha, hb, if_true, List.cons.injEq, and_true] at hab
      exact digitChar_below_ten_inj a ha b hb hab
    · exfalso
      simp only [ha, hb, if_true, if_false] at hab
      have : ([Nat.digitChar a] : List Char).length =
          (natToDigits (b / 10) ++ [Nat.digitChar (b % 10)]).length :=
        congrArg List.length hab
      have hne := natToDigits_ne_nil (b / 10)
      simp only [List.length_singleton, List.length_append] at this
      cases h : natToDigits (b / 10) with
      | nil => exact hne h
      | cons c cs => rw [h] at this; simp at this
    · exfalso
      simp only [ha, hb, if_true, if_false] at hab
      have : (natToDigits (a / 10) ++ [Nat.digitChar (a % 10)]).length =
          ([Nat.digitChar b] : List Char).length := congrArg List.length hab
      have hne := natToDigits_ne_nil (a / 10)
      simp only [List.length_singleton, List.length_append] at this
      cases h : natToDigits (a / 10) with
      | nil => exact hne h
      | cons c cs => rw [h] at this; simp at this
    · simp only [ha, hb, if_false] at hab
      have hlen : ([Nat.digitChar (a % 10)] : List Char).length =
          ([Nat.digitChar (b % 10)] : List Char).length := by simp
      obtain ⟨h1, h2⟩ := List.append_inj' hab hlen
      have hda : a / 10 < a := Nat.div_lt_self (by omega) (by omega)
      have hq : a / 10 = b / 10 := ih (a / 10) hda (b / 10) h1
      have hr : a % 10 = b % 10 := by
        have := List.head_eq_of_cons_eq h2
        exact digitChar_below_ten_inj _ (Nat.mod_lt _ (by omega)) _
          (Nat.mod_lt _ (by omega)) this
      omega

/-! ### State-projection lemmas for the editor helpers -/

@[simp] theorem setDocumentMode_mode (m : Mode) (st : EditorState) :
    (setDocumentMode m st).mode = m := by
  unfold setDocumentMode; split <;> rfl

@[simp] theorem setDocumentMode_doc (m : Mode) (st : EditorState) :
    (setDocumentMode m st).doc = st.doc := by
  unfold setDocumentMode; split <;> rfl

@[simp] theorem setDocumentMode_hasEditor (m : Mode) (st : EditorState) :
    (setDocumentMode m st).hasEditor = st.hasEditor := by
  unfold setDocumentMode; split <;> rfl

@[simp] theorem setDocumentMode_fx (m : Mode) (st : EditorState) :
    (setDocumentMode m st).fx = st.fx := by
  unfold setDocumentMode; split <;> rfl

@[simp] theorem setDocumentMode_sel (m : Mode) (st : EditorState) :
    (setDocumentMode m st).sel = st.sel := by
  unfold setDocumentMode; split <;> rfl

@[simp] theorem setDocumentMode_nodes (m : Mode) (st : EditorState) :
    (setDocumentMode m st).nodes = st.nodes := by
  unfold setDocumentMode; split <;> rfl

@[simp] theorem setDocumentMode_saved (m : Mode) (st : EditorState) :
    (setDocumentMode m st).saved = st.saved := by
  unfold setDocumentMode; split <;> rfl

@[simp] theorem setDocumentModeRaw_mode (m : Mode) (st : EditorState) :
    (setDocumentModeRaw m st).mode = m := rfl

@[simp] theorem setAuthorIfProvided_mode (a : Option AuthorArg) (st : EditorState) :
    (setAuthorIfProvided a st).mode = st.mode := by
  unfold setAuthorIfProvided
  rcases a with _ | a
  · rfl
  · rcases a with ⟨name, email⟩
    rcases name with _ | n
    · rfl
    · dsimp only
      split <;> rfl

@[simp] theorem setAuthorIfProvided_doc (a : Option AuthorArg) (st : EditorState) :
    (setAuthorIfProvided a st).doc = st.doc := by
  unfold setAuthorIfProvided
  rcases a with _ | a
  · rfl
  · rcases a with ⟨name, email⟩
    rcases name with _ | n
    · rfl
    · dsimp only
      split <;> rfl

@[simp] theorem setAuthorIfProvided_hasEditor (a : Option AuthorArg) (st : EditorState) :
    (setAuthorIfProvided a st).hasEditor = st.hasEditor := by
  unfold setAuthorIfProvided
  rcases a with _ | a
  · rfl
  · rcases a with ⟨name, email⟩
    rcases name with _ | n
    · rfl
    · dsimp only
      split <;> rfl

@[simp] theorem setAuthorIfProvided_sel (a : Option AuthorArg) (st : EditorState) :
    (setAuthorIfProvided a st).sel = st.sel := by
  unfold setAuthorIfProvided
  rcases a with _ | a
  · rfl
  · rcases a with ⟨name, email⟩
    rcases name with _ | n
    · rfl
    · dsimp only
      split <;> rfl

@[simp] theorem setAuthorIfProvided_fx (a : Option AuthorArg) (st : EditorState) :
    (setAuthorIfProvided a st).fx = st.fx := by
  unfold setAuthorIfProvided
  rcases a with _ | a
  · rfl
  · rcases a with ⟨name, email⟩
    rcases name with _ | n
    · rfl
    · dsimp only
      split <;> rfl

@[simp] theorem setAuthorIfProvided_nodes (a : Option AuthorArg) (st : EditorState) :
    (setAuthorIfProvided a st).nodes = st.nodes := by
  unfold setAuthorIfProvided
  rcases a with _ | a
  · rfl
  · rcases a with ⟨name, email⟩
    rcases name with _ | n
    · rfl
    · dsimp only
      split <;> rfl

@[simp] theorem saveDocument_mode (st : EditorState) :
    (saveDocument st).mode = st.mode := by
  unfold saveDocument; split <;> rfl

@[simp] theorem saveDocument_doc (st : EditorState) :
    (saveDocument st).doc = st.doc := by
  unfold saveDocument; split <;> rfl

@[simp] theorem saveDocument_fx (st : EditorState) :
    (saveDocument st).fx = st.fx := by
  unfold saveDocument; split <;> rfl

@[simp] theorem saveDocument_hasEditor (st : EditorState) :
    (saveDocument st).hasEditor = st.hasEditor := by
  unfold saveDocument; split <;> rfl

@[simp] theorem applyScope_mode (sc : Option ScopeArg) (st : EditorState) :
    (applyScope sc st).mode = st.mode := by
  unfold applyScope; split <;> rfl

@[simp] theorem applyScope_fx (sc : Option ScopeArg) (st : EditorState) :
    (applyScope sc st).fx = st.fx := by
  unfold applyScope; split <;> rfl

@[simp] theorem applyScope_doc (sc : Option ScopeArg) (st : EditorState) :
    (applyScope sc st).doc = st.doc := by
  unfold applyScope; split <;> rfl

@[simp] theorem insertContentText_mode (s : List Char) (st : EditorState) :
    (insertContentText s st).mode = st.mode := rfl

@[simp] theorem insertContentText_hasEditor (s : List Char) (st : EditorState) :
    (insertContentText s st).hasEditor = st.hasEditor := rfl

@[simp] theorem selectRange_mode (f : Nat) (t : Option Nat) (st : EditorState) :
    (selectRange f t st).mode = st.mode := rfl

@[simp] theorem deleteSelection_mode (st : EditorState) :
    (deleteSelection st).mode = st.mode := rfl

@[simp] theorem pushFx_mode (e : Fx) (st : EditorState) :
    (pushFx e st).mode = st.mode := rfl

@[simp] theorem deleteRange_mode (f t : Nat) (st : EditorState) :
    (deleteRange f t st).mode = st.mode := rfl

@[simp] theorem insertAtPosition_mode (p : Nat) (s : List Char) (st : EditorState) :
    (insertAtPosition p s st).mode = st.mode := rfl

@[simp] theorem engineInsertTable_ok (r c : Nat) (st : EditorState) :
    (engineInsertTable r c st).1 = true := rfl

@[simp] theorem engineInsertTable_mode (r c : Nat) (st : EditorState) :
    (engineInsertTable r c st).2.mode = st.mode := rfl

@[simp] theorem applyTocTransaction_mode (resolved : List ResolvedEntry)
    (title : Option String) (p : Nat) (st : EditorState) :
    (applyTocTransaction resolved title p st).mode = st.mode := rfl

/-- A fold whose every step preserves the mode preserves the mode. -/
theorem foldl_mode {α : Type} (f : EditorState → α → EditorState)
    (hf : ∀ s a, (f s a).mode = s.mode) (l : List α) :
    ∀ st : EditorState, (l.foldl f st).mode = st.mode := by
  induction l with
  | nil => intro st; rfl
  | cons a l ih => intro st; rw [List.foldl_cons, ih, hf]

@[simp] theorem replaceMatches_mode (r : String) (ms : List SMatch) (st : EditorState) :
    (replaceMatches r ms st).mode = st.mode := by
  induction ms generalizing st with
  | nil => rfl
  | cons m ms ih =>
    show (replaceMatches r ms _).mode = _
    rw [ih]
    rfl

@[simp] theorem populateCells_mode (tc : List DocNode) (ins : List (Nat × String))
    (st : EditorState) : (populateCells tc ins st).mode = st.mode := by
  unfold populateCells
  generalize ins.reverse = l
  induction l generalizing st with
  | nil => rfl
  | cons a l ih =>
    rw [List.foldl_cons, ih]
    cases tc.get? a.1 <;> rfl

@[simp] theorem populateTable_mode (args : Args) (tr tc : Nat) (ip : Option Nat)
    (st : EditorState) : (populateTable args tr tc ip st).mode = st.mode := by
  unfold populateTable
  split
  · rfl
  · split
    · rfl
    · exact populateCells_mode _ _ st

/-- The replacement loop's document: fold the per-match range replacements
over the text in list order. -/
theorem replaceMatches_doc (r : String) :
    ∀ (ms : List SMatch) (st : EditorState),
      (replaceMatches r ms st).doc
        = ms.foldl (fun d m => replaceRange d m.mfrom m.mto r.data) st.doc := by
  intro ms
  induction ms with
  | nil => intro st; rfl
  | cons m ms ih =>
    intro st
    show (replaceMatches r ms (insertContentText r.data (selectRange m.mfrom (some m.mto) st))).doc = _
    rw [ih]
    rfl

theorem append_underscore_inj :
    ∀ (as bs xs ys : List Char), '_' ∉ as → '_' ∉ bs →
      as ++ '_' :: xs = bs ++ '_' :: ys → as = bs ∧ xs = ys := by
  intro as
  induction as with
  | nil =>
    intro bs xs ys _ hbs h
    cases bs with
    | nil => simpa using h
    | cons b bs' =>
      exfalso
      simp only [List.nil_append, List.cons_append, List.cons.injEq] at h
      exact hbs (h.1 ▸ List.mem_cons_self _ _)
  | cons a as' ih =>
    intro bs xs ys has hbs h
    cases bs with
    | nil =>
      exfalso
      simp only [List.cons_append, List.nil_append, List.cons.injEq] at h
      exact has (h.1 ▸ List.mem_cons_self _ _)
    | cons b bs' =>
      simp only [List.cons_append, List.cons.injEq] at h
      obtain ⟨rfl, h2⟩ := h
      have := ih bs' xs ys (fun hm => has (List.mem_cons_of_mem _ hm))
        (fun hm => hbs (List.mem_cons_of_mem _ hm)) h2
      exact ⟨by rw [this.1], this.2⟩

/-- Two bookmark identifiers agree only if both the entry index and the
timestamp agree. -/
theorem mkBookmarkName_inj (i t j u : Nat)
    (h : mkBookmarkName i t = mkBookmarkName j u) : i = j ∧ t = u := by
  have hc : mkBookmarkChars i t = mkBookmarkChars j u := by
    have := congrArg String.data h
    simpa [mkBookmarkName] using this
  simp only [mkBookmarkChars, List.cons.injEq, true_and] at hc
  obtain ⟨h1, h2⟩ := append_underscore_inj _ _ _ _
    (natToDigits_no_underscore i) (natToDigits_no_underscore j) hc
  exact ⟨natToDigits_injective _ _ h1, natToDigits_injective _ _ h2⟩

/-! ### Claim C1: replaceText with no occurrence argument -/

theorem occPositions_eq (pat doc : List Char) (hp : pat ≠ []) :
    occPositions pat doc = occPosF pat doc.length doc := by
  unfold occPositions
  rw [if_neg]
  simpa using hp

theorem replaceAllSpec_eq (pat repl doc : List Char) (hp : pat ≠ []) :
    replaceAllSpec pat repl doc = replAllF pat repl doc.length doc := by
  unfold replaceAllSpec
  rw [if_neg]
  simpa using hp

/-- C1 (amended): with no occurrence argument on a document with N >= 1
matches, cmdReplaceText succeeds reporting replacedCount = N, its
descending-order iteration produces exactly the document with every
(leftmost non-overlapping) match replaced, and the text around and between
the matches is preserved: the old and new documents are the same N+1
segments joined with the search text resp. the replacement text.  (A
re-search for the original string finds zero matches only when the
replacement does not reintroduce it; see the counterexample.) -/
theorem replaceText_replaces_every_match (s repl : String) (author : Option AuthorArg)
    (st : EditorState) (hEd : st.hasEditor = true)
    (hN : occPositions s.data st.doc ≠ []) :
    ∃ segs : List (List Char),
      (cmdReplaceText { search := some s, replacement := some repl, author := author } st).1
          = Except.ok (okWith (ResVal.replaced (occPositions s.data st.doc).length))
      ∧ ((cmdReplaceText { search := some s, replacement := some repl, author := author } st).2).doc
          = replaceAllSpec s.data repl.data st.doc
      ∧ segs.length = (occPositions s.data st.doc).length + 1
      ∧ st.doc = joinSep s.data segs
      ∧ replaceAllSpec s.data repl.data st.doc = joinSep repl.data segs := by
  have hsd : s.data ≠ [] := by
    intro h
    apply hN
    simp [occPositions, h]
  have hs : s ≠ "" := by
    intro h
    apply hsd
    rw [h]
  have htru : strTruthy (some s) = true := by simp [strTruthy, hs]
  have hne : (searchText st s).isEmpty = false := by
    have : searchText st s ≠ [] := by
      simp only [searchText, ne_eq, List.map_eq_nil_iff]
      exact hN
    cases hms : searchText st s with
    | nil => exact absurd hms this
    | cons a l => rfl
  have hcmd : cmdReplaceText { search := some s, replacement := some repl, author := author } st
      = finishReplace { search := some s, replacement := some repl, author := author }
          (searchText st s).reverse st := by
    simp [cmdReplaceText, hEd, htru, hne]
  obtain ⟨segs, hsegne, hlen, hdoc, hrep⟩ :=
    replAllF_decomp s.data repl.data hsd st.doc.length st.doc
  have hdocEq :
      ((cmdReplaceText { search := some s, replacement := some repl, author := author } st).2).doc
        = replaceAllSpec s.data repl.data st.doc := by
    rw [hcmd]
    unfold finishReplace
    simp only [setDocumentMode_doc, saveDocument_doc]
    rw [replaceMatches_doc]
    simp only [setDocumentMode_doc, setAuthorIfProvided_doc, Option.getD_some]
    unfold searchText
    rw [← List.map_reverse, List.foldl_map, List.foldl_reverse]
    have hfold := foldr_occPosF_eq_replAllF s.data repl.data hsd st.doc.length st.doc
    rw [occPositions_eq s.data st.doc hsd, replaceAllSpec_eq s.data repl.data st.doc hsd]
    exact hfold
  refine ⟨segs, ?_, hdocEq, ?_, hdoc, ?_⟩
  · rw [hcmd]
    unfold finishReplace
    simp [searchText]
  · rw [occPositions_eq s.data st.doc hsd]
    exact hlen
  · rw [replaceAllSpec_eq s.data repl.data st.doc hsd]
    exact hrep

/-- C1 witness: the theorem applied to the document "The cat sat, a cat"
with search "cat", replacement "dog" (two matches). -/
theorem replaceText_replaces_every_match_witness :
    ∃ segs : List (List Char),
      (cmdReplaceText { search := some "cat", replacement := some "dog" }
            { doc := "The cat sat, a cat".data }).1
          = Except.ok (okWith (ResVal.replaced
              (occPositions "cat".data "The cat sat, a cat".data).length))
      ∧ ((cmdReplaceText { search := some "cat", replacement := some "dog" }
            { doc := "The cat sat, a cat".data }).2).doc
          = replaceAllSpec "cat".data "dog".data "The cat sat, a cat".data
      ∧ segs.length = (occPositions "cat".data "The cat sat, a cat".data).length + 1
      ∧ "The cat sat, a cat".data = joinSep "cat".data segs
      ∧ replaceAllSpec "cat".data "dog".data "The cat sat, a cat".data
          = joinSep "dog".data segs :=
  replaceText_replaces_every_match "cat" "dog" none { doc := "The cat sat, a cat".data }
    (by rfl) (by decide)

/-- C1 counterexample: the claim's conclusion that a re-search for the
original string always yields zero matches is false.  On the document
"aab", replacing the single match of "ab" by "b" yields "ab": the command
succeeds with replacedCount = 1, yet the original search string occurs in
the result again. -/
theorem replaceText_counterexample_search_reappears :
    ((cmdReplaceText { search := some "ab", replacement := some "b" }
        { doc := "aab".data }).2).doc = "ab".data
    ∧ occPositions "ab".data
        ((cmdReplaceText { search := some "ab", replacement := some "b" }
          { doc := "aab".data }).2).doc ≠ []
    ∧ (cmdReplaceText { search := some "ab", replacement := some "b" }
        { doc := "aab".data }).1 = Except.ok (okWith (ResVal.replaced 1)) :=
  ⟨by decide, by decide, rfl⟩

/-! ### Claim C3: findMatch ordinal lookup -/

theorem isEmpty_false_of_ne_nil {α : Type} {l : List α} (h : l ≠ []) :
    l.isEmpty = false := by
  cases l with
  | nil => exact absurd rfl h
  | cons a t => rfl

/-- C3 (amended): on a document with k >= 1 matches of the search string,
findMatch returns the matches in document order (strictly increasing
positions); occurrence = i with 1 <= i <= k returns the i-th match; i > k
or i < 0 yields the OccurrenceNotFound error reporting k; but occurrence
= 0 is falsy in JS and is treated as no occurrence, returning the first
match instead of an error. -/
theorem findMatch_ordinal_lookup (st : EditorState) (s : String)
    (hk : searchText st s ≠ []) :
    (searchText st s).Pairwise (fun a b => a.mfrom < b.mfrom)
    ∧ (∀ i : Nat, ∀ h1 : 1 ≤ i, ∀ hik : i ≤ (searchText st s).length,
        findMatch st s (some (i : Int))
          = Except.ok ((searchText st s).get
              ⟨i - 1, lt_of_lt_of_le (Nat.sub_lt h1 Nat.one_pos) hik⟩, searchText st s))
    ∧ (∀ i : Int, ((searchText st s).length : Int) < i →
        findMatch st s (some i)
          = Except.error ("Occurrence " ++ toString i ++ " not found (only " ++
              toString (searchText st s).length ++ " matches)"))
    ∧ (∀ i : Int, i < 0 →
        findMatch st s (some i)
          = Except.error ("Occurrence " ++ toString i ++ " not found (only " ++
              toString (searchText st s).length ++ " matches)"))
    ∧ findMatch st s (some 0)
        = Except.ok ((searchText st s).get ⟨0, List.length_pos.mpr hk⟩, searchText st s) := by
  have hsd : s.data ≠ [] := by
    intro h
    apply hk
    simp [searchText, occPositions, h]
  have hmsne : (searchText st s).isEmpty = false := isEmpty_false_of_ne_nil hk
  refine ⟨?_, ?_, ?_, ?_, ?_⟩
  · unfold searchText
    rw [List.pairwise_map]
    exact ((occPositions_eq s.data st.doc hsd) ▸
      occPosF_sorted s.data hsd st.doc.length st.doc).imp (fun h => h)
  · intro i h1 hik
    have htru : occurrenceTruthy (some (i : Int)) = true := by
      simp [occurrenceTruthy]
      omega
    have hcond : ¬((((i : Nat) : Int) - 1) < 0 ∨
        ((searchText st s).length : Int) ≤ (((i : Nat) : Int) - 1)) := by
      omega
    unfold findMatch
    simp only [hmsne, Bool.false_eq_true, dif_neg, htru, if_true, not_false_iff,
      Option.getD_some]
    rw [dif_neg hcond]
    have hidx : ((i : Int) - 1).toNat = i - 1 := by omega
    exact congrArg Except.ok
      (congrArg (fun f => ((searchText st s).get f, searchText st s)) (Fin.mk_eq_mk.mpr hidx))
  · intro i hbig
    have htru : occurrenceTruthy (some i) = true := by
      simp [occurrenceTruthy]
      omega
    have hcond : (((some i).getD 0 - 1) < 0 ∨
        ((searchText st s).length : Int) ≤ ((some i).getD 0 - 1)) := by
      simp only [Option.getD_some]
      omega
    unfold findMatch
    simp only [hmsne, Bool.false_eq_true, dif_neg, htru, if_true]
    rw [dif_pos hcond]
    rfl
  · intro i hneg
    have htru : occurrenceTruthy (some i) = true := by
      simp [occurrenceTruthy]
      omega
    have hcond : (((some i).getD 0 - 1) < 0 ∨
        ((searchText st s).length : Int) ≤ ((some i).getD 0 - 1)) := by
      simp only [Option.getD_some]
      omega
    unfold findMatch
    simp only [hmsne, Bool.false_eq_true, dif_neg, htru, if_true]
    rw [dif_pos hcond]
    rfl
  · have htru : occurrenceTruthy (some 0) = false := by
      simp [occurrenceTruthy]
    have hcond : ¬((0 : Int) < 0 ∨ ((searchText st s).length : Int) ≤ (0 : Int)) := by
      have := List.length_pos.mpr hk
      omega
    unfold findMatch
    simp only [hmsne, Bool.false_eq_true, dif_neg, htru, if_false, hcond, not_false_iff]
    rfl

/-- C3 witness: the theorem applied to the document "x y x" with search
"x" (two matches at positions 0 and 4): the second match for i = 2, the
error reporting 2 for i = 3 and i = -1, and the first match for i = 0. -/
theorem findMatch_ordinal_lookup_witness :
    findMatch { doc := "x y x".data } "x" (some (2 : Nat))
        = Except.ok ((searchText { doc := "x y x".data } "x").get ⟨2 - 1, by decide⟩,
            searchText { doc := "x y x".data } "x")
    ∧ findMatch { doc := "x y x".data } "x" (some 3)
        = Except.error ("Occurrence " ++ toString (3 : Int) ++ " not found (only " ++
            toString (searchText { doc := "x y x".data } "x").length ++ " matches)")
    ∧ findMatch { doc := "x y x".data } "x" (some (-1))
        = Except.error ("Occurrence " ++ toString (-1 : Int) ++ " not found (only " ++
            toString (searchText { doc := "x y x".data } "x").length ++ " matches)") :=
  ⟨(findMatch_ordinal_lookup { doc := "x y x".data } "x" (by decide)).2.1 2 (by decide) (by decide),
   (findMatch_ordinal_lookup { doc := "x y x".data } "x" (by decide)).2.2.1 3 (by decide),
   (findMatch_ordinal_lookup { doc := "x y x".data } "x" (by decide)).2.2.2.1 (-1) (by decide)⟩

/-- C3 counterexample: the claim says occurrence i = 0 yields an
OccurrenceNotFound error; instead findMatch treats the falsy 0 as absent
and returns the first match of "ab" in "ab ab". -/
theorem findMatch_counterexample_zero_occurrence :
    findMatch { doc := "ab ab".data } "ab" (some 0)
      = Except.ok ({ mfrom := 0, mto := 2, mtext := "ab" },
          [{ mfrom := 0, mto := 2, mtext := "ab" },
           { mfrom := 3, mto := 5, mtext := "ab" }]) := rfl

/-! ### Claim C2: mode restoration -/

@[simp] theorem finishReplace_mode (args : Args) (tr : List SMatch) (st : EditorState) :
    (finishReplace args tr st).2.mode = Mode.editing := by
  simp [finishReplace]

@[simp] theorem finishInsertContent_mode (args : Args) (p : Nat) (st : EditorState) :
    (finishInsertContent args p st).2.mode = Mode.editing := by
  simp [finishInsertContent]

@[simp] theorem finishInsertTable_mode (args : Args) (tr tc : Nat) (ip : Option Nat)
    (st : EditorState) : (finishInsertTable args tr tc ip st).2.mode = Mode.editing := by
  simp [finishInsertTable]

@[simp] theorem finishInsertToc_mode (args : Args) (resolved : List ResolvedEntry)
    (p : Nat) (st : EditorState) :
    (finishInsertToc args resolved p st).2.mode = Mode.editing := by
  simp [finishInsertToc]

set_option maxHeartbeats 2000000 in
set_option maxRecDepth 4096 in
/-- C2 (amended): cmdFormatText restores the exact prior mode on every
path.  The other mutating commands leave the mode at editing on success
(equal to the prior mode only when the command began in editing mode,
which is the engine's default).  The insertTable handler switches the mode
before its anchor lookup, so its anchor failure leaves the mode at
suggesting (see the counterexample). -/
theorem mode_restoration (args : Args) (st : EditorState) :
    ((cmdFormatText args st).2.mode = st.mode)
    ∧ (∀ r : CmdResult, (cmdReplaceText args st).1 = Except.ok r → r.success = true →
        (cmdReplaceText args st).2.mode = Mode.editing)
    ∧ (∀ r : CmdResult, (cmdInsertContent args st).1 = Except.ok r → r.success = true →
        (cmdInsertContent args st).2.mode = Mode.editing)
    ∧ (∀ r : CmdResult, (cmdDeleteNode args st).1 = Except.ok r → r.success = true →
        (cmdDeleteNode args st).2.mode = Mode.editing)
    ∧ (∀ r : CmdResult, (cmdInsertTable args st).1 = Except.ok r → r.success = true →
        (cmdInsertTable args st).2.mode = Mode.editing)
    ∧ (∀ r : CmdResult, (cmdInsertImage args st).1 = Except.ok r → r.success = true →
        (cmdInsertImage args st).2.mode = Mode.editing)
    ∧ (∀ r : CmdResult, (cmdInsertTableOfContents args st).1 = Except.ok r →
        r.success = true →
        (cmdInsertTableOfContents args st).2.mode = Mode.editing) := by
  refine ⟨?_, ?_, ?_, ?_, ?_, ?_, ?_⟩
  · unfold cmdFormatText
    split
    · rfl
    · split
      · rfl
      · simp
  · intro r h hs
    rcases hE : cmdReplaceText args st with ⟨res, st2⟩
    rw [hE] at h
    dsimp only at h
    subst h
    unfold cmdReplaceText at hE
    rcases hOcc : args.occurrence with _ | occ <;> rw [hOcc] at hE <;>
    (try dsimp only at hE) <;>
      (try split at hE) <;> (try dsimp only at hE) <;>
      (try split at hE) <;> (try dsimp only at hE) <;>
      (try split at hE) <;> (try dsimp only at hE) <;>
      (try split at hE) <;> (try dsimp only at hE) <;>
      (try split at hE) <;> (try dsimp only at hE) <;>
      (try split at hE) <;> (try dsimp only at hE)
    all_goals first
    | (simp only [Prod.mk.injEq, Except.ok.injEq] at hE
       rw [← hE.1] at hs
       simp [errResult, noActiveEditor] at hs
       done)
    | (simp only [Prod.mk.injEq] at hE
       have hclash := hE.1
       simp at hclash
       done)
    | (simp only [Prod.mk.injEq] at hE
       rw [← hE.2]
       simp
       done)
    | (rw [← congrArg Prod.snd hE]
       simp
       done)
  · intro r h hs
    rcases hE : cmdInsertContent args st with ⟨res, st2⟩
    rw [hE] at h
    dsimp only at h
    subst h
    unfold cmdInsertContent at hE
    (try dsimp only at hE) <;>
      (try split at hE) <;> (try dsimp only at hE) <;>
      (try split at hE) <;> (try dsimp only at hE) <;>
      (try split at hE) <;> (try dsimp only at hE) <;>
      (try split at hE) <;> (try dsimp only at hE) <;>
      (try split at hE) <;> (try dsimp only at hE) <;>
      (try split at hE) <;> (try dsimp only at hE)
    all_goals first
    | (simp only [Prod.mk.injEq, Except.ok.injEq] at hE
       rw [← hE.1] at hs
       simp [errResult, noActiveEditor] at hs
       done)
    | (simp only [Prod.mk.injEq] at hE
       have hclash := hE.1
       simp at hclash
       done)
    | (simp only [Prod.mk.injEq] at hE
       rw [← hE.2]
       simp
       done)
    | (rw [← congrArg Prod.snd hE]
       simp
       done)
  · intro r h hs
    rcases hE : cmdDeleteNode args st with ⟨res, st2⟩
    rw [hE] at h
    dsimp only at h
    subst h
    unfold cmdDeleteNode at hE
    rcases hIdx : args.index with _ | idxArg <;> rw [hIdx] at hE <;>
    (try dsimp only at hE) <;>
      (try split at hE) <;> (try dsimp only at hE) <;>
      (try split at hE) <;> (try dsimp only at hE) <;>
      (try split at hE) <;> (try dsimp only at hE) <;>
      (try split at hE) <;> (try dsimp only at hE) <;>
      (try split at hE) <;> (try dsimp only at hE) <;>
      (try split at hE) <;> (try dsimp only at hE)
    all_goals first
    | (simp only [Prod.mk.injEq, Except.ok.injEq] at hE
       rw [← hE.1] at hs
       simp [errResult, noActiveEditor] at hs
       done)
    | (simp only [Prod.mk.injEq] at hE
       have hclash := hE.1
       simp at hclash
       done)
    | (simp only [Prod.mk.injEq] at hE
       rw [← hE.2]
       simp
       done)
    | (rw [← congrArg Prod.snd hE]
       simp
       done)
  · intro r h hs
    rcases hE : cmdInsertTable args st with ⟨res, st2⟩
    rw [hE] at h
    dsimp only at h
    subst h
    unfold cmdInsertTable at hE
    (try dsimp only at hE) <;>
      (try split at hE) <;> (try dsimp only at hE) <;>
      (try split at hE) <;> (try dsimp only at hE) <;>
      (try split at hE) <;> (try dsimp only at hE) <;>
      (try split at hE) <;> (try dsimp only at hE) <;>
      (try split at hE) <;> (try dsimp only at hE) <;>
      (try split at hE) <;> (try dsimp only at hE)
    all_goals first
    | (simp only [Prod.mk.injEq, Except.ok.injEq] at hE
       rw [← hE.1] at hs
       simp [errResult, noActiveEditor] at hs
       done)
    | (simp only [Prod.mk.injEq] at hE
       have hclash := hE.1
       simp at hclash
       done)
    | (simp only [Prod.mk.injEq] at hE
       rw [← hE.2]
       simp
       done)
    | (rw [← congrArg Prod.snd hE]
       simp
       done)
  · intro r h hs
    rcases hE : cmdInsertImage args st with ⟨res, st2⟩
    rw [hE] at h
    dsimp only at h
    subst h
    unfold cmdInsertImage at hE
    (try dsimp only at hE) <;>
      (try split at hE) <;> (try dsimp only at hE) <;>
      (try split at hE) <;> (try dsimp only at hE) <;>
      (try split at hE) <;> (try dsimp only at hE) <;>
      (try split at hE) <;> (try dsimp only at hE) <;>
      (try split at hE) <;> (try dsimp only at hE) <;>
      (try split at hE) <;> (try dsimp only at hE)
    all_goals first
    | (simp only [Prod.mk.injEq, Except.ok.injEq] at hE
       rw [← hE.1] at hs
       simp [errResult, noActiveEditor] at hs
       done)
    | (simp only [Prod.mk.injEq] at hE
       have hclash := hE.1
       simp at hclash
       done)
    | (simp only [Prod.mk.injEq] at hE
       rw [← hE.2]
       simp
       done)
    | (rw [← congrArg Prod.snd hE]
       simp
       done)
  · intro r h hs
    rcases hE : cmdInsertTableOfContents args st with ⟨res, st2⟩
    rw [hE] at h
    dsimp only at h
    subst h
    unfold cmdInsertTableOfContents at hE
    rcases hEnt : args.entries with _ | entries <;> rw [hEnt] at hE <;>
    (try dsimp only at hE) <;>
      (try split at hE) <;> (try dsimp only at hE) <;>
      (try split at hE) <;> (try dsimp only at hE) <;>
      (try split at hE) <;> (try dsimp only at hE) <;>
      (try split at hE) <;> (try dsimp only at hE) <;>
      (try split at hE) <;> (try dsimp only at hE) <;>
      (try split at hE) <;> (try dsimp only at hE)
    all_goals first
    | (simp only [Prod.mk.injEq, Except.ok.injEq] at hE
       rw [← hE.1] at hs
       simp [errResult, noActiveEditor] at hs
       done)
    | (simp only [Prod.mk.injEq] at hE
       have hclash := hE.1
       simp at hclash
       done)
    | (simp only [Prod.mk.injEq] at hE
       rw [← hE.2]
       simp
       done)
    | (rw [← congrArg Prod.snd hE]
       simp
       done)

/-- C2 witness: formatText (removing a highlight) preserves the mode on a
concrete state, and a successful replaceText ends in editing mode. -/
theorem mode_restoration_witness :
    (cmdFormatText { highlight := some StrOrFalse.fval } { doc := "x".data }).2.mode
        = ({ doc := "x".data } : EditorState).mode
    ∧ (cmdReplaceText { search := some "cat", replacement := some "dog" }
        { doc := "The cat".data }).2.mode = Mode.editing :=
  ⟨(mode_restoration { highlight := some StrOrFalse.fval } { doc := "x".data }).1,
   (mode_restoration { search := some "cat", replacement := some "dog" }
      { doc := "The cat".data }).2.1 (okWith (ResVal.replaced 1)) rfl rfl⟩

/-- C2 counterexample: cmdInsertTable on a document without the anchor
text, starting in editing mode, fails after switching to suggesting mode
and leaves the mode there: the mode after the command differs from the
mode before it. -/
theorem insertTable_mode_leak_counterexample :
    ({ doc := "hello".data } : EditorState).mode = Mode.editing
    ∧ (cmdInsertTable { position := some { after := some "zzz" } }
        { doc := "hello".data }).1
        = Except.ok (errResult "Anchor text not found: \"zzz\"")
    ∧ (cmdInsertTable { position := some { after := some "zzz" } }
        { doc := "hello".data }).2.mode = Mode.suggesting :=
  ⟨rfl, rfl, rfl⟩

/-! ### Claim C4: self-write suppression in the file watcher -/

/-- C4: a save records its wall-clock time; a file-change event whose
timestamp is within 1000 ms after the last recorded self-write triggers no
reload and leaves the document untouched; an event at or past the window's
end triggers exactly one reload that re-reads the file and pushes the new
bytes. -/
theorem fileWatcher_suppression (d : HostDoc) (now tw : Nat) (disk : List Nat) :
    ((hostDocSave tw d).lastSaveTime = tw)
    ∧ (now < d.lastSaveTime + 1000 → onFileChange now disk d = (d, none))
    ∧ (d.lastSaveTime + 1000 ≤ now →
        onFileChange now disk d = ({ d with data := disk }, some disk)) := by
  refine ⟨rfl, ?_, ?_⟩
  · intro h
    unfold onFileChange
    rw [if_pos]
    omega
  · intro h
    unfold onFileChange
    rw [if_neg]
    omega

/-- C4 witness: with the last save at time 5000, a change event at 5500 is
suppressed and one at 6000 reloads the on-disk bytes. -/
theorem fileWatcher_suppression_witness :
    onFileChange 5500 [2, 3] { data := [1], lastSaveTime := 5000 }
      = ({ data := [1], lastSaveTime := 5000 }, none)
    ∧ onFileChange 6000 [2, 3] { data := [1], lastSaveTime := 5000 }
      = ({ data := [2, 3], lastSaveTime := 5000 }, some [2, 3]) :=
  ⟨(fileWatcher_suppression { data := [1], lastSaveTime := 5000 } 5500 0 [2, 3]).2.1
      (by decide),
   (fileWatcher_suppression { data := [1], lastSaveTime := 5000 } 6000 0 [2, 3]).2.2
      (by decide)⟩

/-! ### Claim C9: writeCommandResponse frame conditions -/

theorem eraseKey_lookup_none (k : String) :
    ∀ l : List (String × String), (eraseKey l k).lookup k = none := by
  intro l
  induction l with
  | nil => rfl
  | cons kv rest ih =>
    by_cases hk : (kv.1 != k) = true
    · have hne : (k == kv.1) = false := by
        have h1 : kv.1 ≠ k := by simpa [bne] using hk
        exact beq_false_of_ne (fun hh => h1 hh.symm)
      simp only [eraseKey, List.filter_cons, hk, if_true, List.lookup, hne]
      simpa [eraseKey] using ih
    · simp only [eraseKey, List.filter_cons, hk]
      simpa [eraseKey] using ih

theorem eraseKey_lookup_other (k q : String) (hq : q ≠ k) :
    ∀ l : List (String × String), (eraseKey l k).lookup q = l.lookup q := by
  intro l
  induction l with
  | nil => rfl
  | cons kv rest ih =>
    by_cases hk : (kv.1 != k) = true
    · simp only [eraseKey, List.filter_cons, hk, if_true, List.lookup]
      cases hkq : (q == kv.1) with
      | true => rfl
      | false => simpa [eraseKey] using ih
    · have hkk : kv.1 = k := by
        simpa [bne] using hk
      have hkq : (q == kv.1) = false := by
        rw [hkk]
        exact beq_false_of_ne hq
      simp only [eraseKey, List.filter_cons, hk, List.lookup, hkq]
      simpa [eraseKey] using ih

/-- C9: a commandResult whose id has no pending entry writes no file and
leaves the state unchanged; when the id has an entry, exactly that entry's
file is overwritten with the serialized result (all other files keep their
content), and the entry is removed from the table (other ids keep their
entries). -/
theorem writeCommandResponse_frame (st : BridgeState) (cmdId : String) (res : HostResult) :
    (st.pendingCommands.lookup cmdId = none → writeCommandResponse cmdId res st = st)
    ∧ (∀ path, st.pendingCommands.lookup cmdId = some path →
        (writeCommandResponse cmdId res st).files path = some (serializeResult res)
        ∧ (∀ q, q ≠ path → (writeCommandResponse cmdId res st).files q = st.files q)
        ∧ (writeCommandResponse cmdId res st).pendingCommands.lookup cmdId = none
        ∧ (∀ j, j ≠ cmdId →
            (writeCommandResponse cmdId res st).pendingCommands.lookup j
              = st.pendingCommands.lookup j)) := by
  constructor
  · intro h
    unfold writeCommandResponse
    rw [h]
  · intro path h
    unfold writeCommandResponse
    rw [h]
    refine ⟨?_, ?_, ?_, ?_⟩
    · simp [writeFileSync]
    · intro q hq
      simp [writeFileSync, hq]
    · exact eraseKey_lookup_none cmdId st.pendingCommands
    · intro j hj
      exact eraseKey_lookup_other cmdId j hj st.pendingCommands

/-- C9 witness: with id "a" pending at path "/p/a.json" and id "b" absent,
the response for "b" changes nothing, and the response for "a" overwrites
exactly "/p/a.json" and removes the entry. -/
theorem writeCommandResponse_frame_witness :
    (writeCommandResponse "b" { id := "b", success := true }
        { pendingCommands := [("a", "/p/a.json")] }
      = { pendingCommands := [("a", "/p/a.json")] })
    ∧ (writeCommandResponse "a" { id := "a", success := true }
        { pendingCommands := [("a", "/p/a.json")] }).files "/p/a.json"
      = some (serializeResult { id := "a", success := true })
    ∧ (writeCommandResponse "a" { id := "a", success := true }
        { pendingCommands := [("a", "/p/a.json")] }).pendingCommands.lookup "a" = none :=
  ⟨(writeCommandResponse_frame { pendingCommands := [("a", "/p/a.json")] } "b"
      { id := "b", success := true }).1 rfl,
   ((writeCommandResponse_frame { pendingCommands := [("a", "/p/a.json")] } "a"
      { id := "a", success := true }).2 "/p/a.json" rfl).1,
   ((writeCommandResponse_frame { pendingCommands := [("a", "/p/a.json")] } "a"
      { id := "a", success := true }).2 "/p/a.json" rfl).2.2.1⟩

/-! ### Claim C10: insertTable zero dimensions -/

/-- C10 (amended): a rows or cols argument equal to 0 is falsy and is
treated exactly like an absent one, falling back to data's shape (outer
length for rows, first row's length for cols) or to 2 without data; the
successful command reports exactly the computed dimensions.  The computed
dimension is nonzero provided the data used for the fallback is nonempty
(rows) resp. has a nonempty first row (cols) — data = [] yields rows = 0
and data = [[]] yields cols = 0, so the request can carry a zero
dimension (see the counterexample). -/
theorem insertTable_zero_dims (args : Args) (st : EditorState) :
    (tableRowsOf { args with rows := some 0 } = tableRowsOf { args with rows := none })
    ∧ (tableColsOf { args with cols := some 0 } = tableColsOf { args with cols := none })
    ∧ (∀ r : CmdResult, (cmdInsertTable args st).1 = Except.ok r → r.success = true →
        r = okWith (ResVal.tableDims (tableRowsOf args) (tableColsOf args)))
    ∧ ((args.rows = none ∨ args.rows = some 0) →
        (∀ d, args.data = some d → d ≠ []) → 0 < tableRowsOf args)
    ∧ ((args.cols = none ∨ args.cols = some 0) →
        (∀ r0 rs, args.data = some (r0 :: rs) → r0 ≠ []) → 0 < tableColsOf args) := by
  refine ⟨by simp [tableRowsOf], by simp [tableColsOf], ?_, ?_, ?_⟩
  · intro r h hs
    rcases hE : cmdInsertTable args st with ⟨res, st2⟩
    rw [hE] at h
    dsimp only at h
    subst h
    unfold cmdInsertTable at hE
    (try dsimp only at hE) <;>
      (try split at hE) <;> (try dsimp only at hE) <;>
      (try split at hE) <;> (try dsimp only at hE) <;>
      (try split at hE) <;> (try dsimp only at hE) <;>
      (try split at hE) <;> (try dsimp only at hE)
    all_goals first
    | (simp only [Prod.mk.injEq, Except.ok.injEq] at hE
       rw [← hE.1] at hs
       simp [errResult, noActiveEditor] at hs
       done)
    | (unfold finishInsertTable at hE
       simp only [engineInsertTable_ok, Bool.not_true, Bool.false_eq_true, if_false,
         Prod.mk.injEq, Except.ok.injEq] at hE
       exact hE.1.symm)
  · rintro (hr | hr) hd <;>
      (have hfall : 0 < tableRowsFallback args.data := by
        rcases hdat : args.data with _ | d
        · simp [tableRowsFallback]
        · have hne := hd d hdat
          have hlen : d.length ≠ 0 := fun hh => hne (List.eq_nil_of_length_eq_zero hh)
          simpa [tableRowsFallback] using Nat.pos_of_ne_zero hlen) <;>
      unfold tableRowsOf <;>
      rw [hr] <;>
      simpa using hfall
  · rintro (hc | hc) hd <;>
      (have hfall : 0 < tableColsFallback args.data := by
        rcases hdat : args.data with _ | d
        · simp [tableColsFallback]
        · rcases d with _ | ⟨r0, rs⟩
          · simp [tableColsFallback]
          · have hne := hd r0 rs hdat
            have hlen : r0.length ≠ 0 := fun hh => hne (List.eq_nil_of_length_eq_zero hh)
            simpa [tableColsFallback] using Nat.pos_of_ne_zero hlen) <;>
      unfold tableColsOf <;>
      rw [hc] <;>
      simpa using hfall

/-- C10 witness: rows = 0 with a 3-row data array falls back to 3 rows and
1 column, and the successful command reports exactly those dimensions. -/
theorem insertTable_zero_dims_witness :
    tableRowsOf { rows := some 0, data := some [["a"], ["b"], ["c"]] }
      = tableRowsOf { rows := none, data := some [["a"], ["b"], ["c"]] }
    ∧ okWith (ResVal.tableDims 3 1)
      = okWith (ResVal.tableDims
          (tableRowsOf { rows := some 0, data := some [["a"], ["b"], ["c"]] })
          (tableColsOf { rows := some 0, data := some [["a"], ["b"], ["c"]] }))
    ∧ 0 < tableRowsOf { rows := some 0, data := some [["a"], ["b"], ["c"]] } :=
  ⟨(insertTable_zero_dims { rows := some 0, data := some [["a"], ["b"], ["c"]] }
      { doc := "hi".data }).1,
   (insertTable_zero_dims { rows := some 0, data := some [["a"], ["b"], ["c"]] }
      { doc := "hi".data }).2.2.1 (okWith (ResVal.tableDims 3 1)) rfl rfl,
   (insertTable_zero_dims { rows := some 0, data := some [["a"], ["b"], ["c"]] }
      { doc := "hi".data }).2.2.2.1 (Or.inr rfl)
     (fun d hd => by injection hd with hh; rw [← hh]; simp)⟩

/-- C10 counterexample: data = [] makes the rows fallback 0 and the
successful command's table-creation request carries rows = 0 (and
data = [[]] likewise yields cols = 0), refuting "never carries a zero
dimension". -/
theorem insertTable_counterexample_empty_data :
    tableRowsOf { data := some ([] : List (List String)) } = 0
    ∧ (cmdInsertTable { data := some ([] : List (List String)) } { doc := "hi".data }).1
        = Except.ok (okWith (ResVal.tableDims 0 2))
    ∧ tableColsOf { data := some ([[]] : List (List String)) } = 0 :=
  ⟨rfl, rfl, rfl⟩

/-! ### Claim C8: formatText string-valued properties -/

@[simp] theorem setDocumentModeRaw_fx (m : Mode) (st : EditorState) :
    (setDocumentModeRaw m st).fx = st.fx := rfl

/-- C8 (amended): in cmdFormatText, highlight and link are set by a
non-empty string value and removed by the literal false, and the literal
false alone makes the request valid (they count as a format option
whenever present); color is set by a non-empty string, but a false color
is falsy: it is skipped (no removal is issued — no unset-color command
exists in the handler) and it does not count toward the
at-least-one-option validation (see the counterexample).  On any valid
request the handler returns exactly the applied-effects list and appends
exactly the computed visual commands to the engine trace. -/
theorem formatText_string_props (args : Args) (st : EditorState)
    (hEd : st.hasEditor = true) :
    (hasFormatOption args = true →
      (cmdFormatText args st).1 = Except.ok (okWith (ResVal.applied (formatTextOps args).2))
      ∧ (cmdFormatText args st).2.fx = st.fx ++ (formatTextOps args).1)
    ∧ (∀ s, args.highlight = some (StrOrFalse.str s) → s ≠ "" →
        Fx.setHighlight s ∈ (formatTextOps args).1
        ∧ ("highlight: " ++ s) ∈ (formatTextOps args).2)
    ∧ (args.highlight = some StrOrFalse.fval →
        hasFormatOption args = true
        ∧ Fx.unsetHighlight ∈ (formatTextOps args).1
        ∧ "highlight: removed" ∈ (formatTextOps args).2)
    ∧ (∀ s, args.link = some (StrOrFalse.str s) → s ≠ "" →
        Fx.setLink s ∈ (formatTextOps args).1
        ∧ ("link: " ++ s) ∈ (formatTextOps args).2)
    ∧ (args.link = some StrOrFalse.fval →
        hasFormatOption args = true
        ∧ Fx.unsetLink ∈ (formatTextOps args).1
        ∧ "link: removed" ∈ (formatTextOps args).2)
    ∧ (∀ s, args.color = some (StrOrFalse.str s) → s ≠ "" →
        Fx.setColor s ∈ (formatTextOps args).1) := by
  refine ⟨?_, ?_, ?_, ?_, ?_, ?_⟩
  · intro hfmt
    constructor
    · simp [cmdFormatText, hEd, hfmt]
    · simp [cmdFormatText, hEd, hfmt]
  · intro s hh hs
    constructor
    · simp [formatTextOps, hh, hs]
    · simp [formatTextOps, hh, hs]
  · intro hh
    refine ⟨?_, ?_, ?_⟩
    · simp [hasFormatOption, hh]
    · simp [formatTextOps, hh]
    · simp [formatTextOps, hh]
  · intro s hh hs
    constructor
    · simp [formatTextOps, hh, hs]
    · simp [formatTextOps, hh, hs]
  · intro hh
    refine ⟨?_, ?_, ?_⟩
    · simp [hasFormatOption, hh]
    · simp [formatTextOps, hh]
    · simp [formatTextOps, hh]
  · intro s hh hs
    simp [formatTextOps, hh, hs]

/-- C8 witness: a request whose only option is highlight = false (resp.
link = false) is valid and performs the removal; a non-empty highlight
string sets it; a non-empty color string sets the color. -/
theorem formatText_string_props_witness :
    (hasFormatOption { highlight := some StrOrFalse.fval } = true
      ∧ Fx.unsetHighlight ∈ (formatTextOps { highlight := some StrOrFalse.fval }).1
      ∧ "highlight: removed" ∈ (formatTextOps { highlight := some StrOrFalse.fval }).2)
    ∧ (hasFormatOption { link := some StrOrFalse.fval } = true
      ∧ Fx.unsetLink ∈ (formatTextOps { link := some StrOrFalse.fval }).1
      ∧ "link: removed" ∈ (formatTextOps { link := some StrOrFalse.fval }).2)
    ∧ (Fx.setHighlight "yellow"
        ∈ (formatTextOps { highlight := some (StrOrFalse.str "yellow") }).1
      ∧ ("highlight: " ++ "yellow")
        ∈ (formatTextOps { highlight := some (StrOrFalse.str "yellow") }).2)
    ∧ Fx.setColor "#ff0000" ∈ (formatTextOps { color := some (StrOrFalse.str "#ff0000") }).1
    ∧ (cmdFormatText { highlight := some StrOrFalse.fval } { doc := "x".data }).1
        = Except.ok (okWith (ResVal.applied
            (formatTextOps { highlight := some StrOrFalse.fval }).2)) :=
  ⟨(formatText_string_props { highlight := some StrOrFalse.fval } { doc := "x".data }
      rfl).2.2.1 rfl,
   (formatText_string_props { link := some StrOrFalse.fval } { doc := "x".data }
      rfl).2.2.2.2.1 rfl,
   (formatText_string_props { highlight := some (StrOrFalse.str "yellow") }
      { doc := "x".data } rfl).2.1 "yellow" rfl (by decide),
   (formatText_string_props { color := some (StrOrFalse.str "#ff0000") }
      { doc := "x".data } rfl).2.2.2.2.2 "#ff0000" rfl (by decide),
   ((formatText_string_props { highlight := some StrOrFalse.fval } { doc := "x".data }
      rfl).1 rfl).1⟩

/-- C8 counterexample: the literal false for color is not a format option
and performs no removal: a request whose only option is color = false is
rejected as invalid, and even alongside another option the false color
contributes no engine command at all. -/
theorem formatText_color_false_counterexample :
    hasFormatOption { color := some StrOrFalse.fval } = false
    ∧ (cmdFormatText { color := some StrOrFalse.fval } { doc := "x".data }).1
        = Except.ok (errResult "At least one format option required")
    ∧ (formatTextOps { color := some StrOrFalse.fval, bold := some true }).1
        = [Fx.setBold] :=
  ⟨rfl, rfl, rfl⟩

/-! ### Claim C5: total dispatch with error conversion -/

/-- C5: executeCommand always returns a result (it is a total function
into a result/state pair): an unregistered command name yields exactly the
failure result "Unknown command: name" with the state untouched, and a
handler that throws has its exception caught and converted to a failure
result carrying the exception's message, with the state the handler left
behind. -/
theorem executeCommand_dispatch (cmd : String) (args : Args) (st : EditorState) :
    (COMMANDS.lookup cmd = none →
      executeCommand cmd args st = (errResult ("Unknown command: " ++ cmd), st))
    ∧ (∀ handler, COMMANDS.lookup cmd = some handler →
        ∀ msg st2, handler args st = (Except.error msg, st2) →
          executeCommand cmd args st = (errResult msg, st2)) := by
  constructor
  · intro h
    unfold executeCommand
    rw [h]
  · intro handler h msg st2 hh
    unfold executeCommand
    rw [h]
    dsimp only
    rw [hh]

/-- C5 witness: the unknown name "frobnicate" yields exactly the unknown
command failure, and the registered insertTableOfContents handler thrown on
a null entry (destructuring TypeError) is converted to a failure result
carrying the exception message. -/
theorem executeCommand_dispatch_witness :
    executeCommand "frobnicate" {} { doc := "x".data }
      = (errResult ("Unknown command: " ++ "frobnicate"), { doc := "x".data })
    ∧ executeCommand "insertTableOfContents" { entries := some [none] } { doc := "x".data }
      = (errResult "Cannot destructure property level of null entry", { doc := "x".data }) :=
  ⟨(executeCommand_dispatch "frobnicate" {} { doc := "x".data }).1 rfl,
   (executeCommand_dispatch "insertTableOfContents" { entries := some [none] }
      { doc := "x".data }).2 cmdInsertTableOfContents rfl
     "Cannot destructure property level of null entry" { doc := "x".data } rfl⟩

/-! ### Claim C6: TOC bookmark identifier disjointness -/

/-- Every entry the validation loop accepts gets a bookmark identifier of
the form mkBookmarkName i t for the loop's shared timestamp t. -/
theorem resolveEntries_bookmarks (doc : List Char) (t : Nat) :
    ∀ (entries : List (Option TocEntryArg)) (i0 : Nat) (res : List ResolvedEntry),
      resolveEntries doc t i0 entries = ResolveOutcome.ok res →
      ∀ e ∈ res, ∃ i, e.bookmarkName = mkBookmarkName i t := by
  intro entries
  induction entries with
  | nil =>
    intro i0 res h e he
    simp only [resolveEntries, ResolveOutcome.ok.injEq] at h
    rw [← h] at he
    simp at he
  | cons e0 rest ih =>
    intro i0 res h e he
    rcases e0 with _ | en
    · exact absurd h (by simp [resolveEntries])
    · rcases hrec : resolveEntries doc t (i0 + 1) rest with tail | m | m <;>
        (unfold resolveEntries at h
         rw [hrec] at h
         (try dsimp only at h)) <;>
        (try split at h) <;> (try split at h) <;> (try split at h) <;>
        (try split at h) <;> (try dsimp only at h)
      all_goals first
      | (have hclash := h
         simp at hclash
         done)
      | (injection h with h1
         rw [← h1] at he
         rcases List.mem_cons.mp he with rfl | hmem
         · exact ⟨i0, rfl⟩
         · exact ih (i0 + 1) tail hrec e hmem)

/-- The bookmark identifiers that a finishing TOC insertion reports are
those of its validated entries. -/
theorem finishInsertToc_bookmarks (args : Args) (resolved : List ResolvedEntry)
    (p : Nat) (st : EditorState) (t : Nat) (r : CmdResult) (n : Nat)
    (l : List TocResEntry)
    (hall : ∀ e ∈ resolved, ∃ i, e.bookmarkName = mkBookmarkName i t)
    (h : (finishInsertToc args resolved p st).1 = Except.ok r)
    (hr : r.result = some (ResVal.tocEntries n l)) :
    ∀ e ∈ l, ∃ i, e.bookmark = mkBookmarkName i t := by
  have hrr := Except.ok.inj h
  rw [← hrr] at hr
  simp only [okWith, Option.some.injEq] at hr
  injection hr with hn hl
  intro e he
  rw [← hl] at he
  obtain ⟨re, hre, rfl⟩ := List.mem_map.mp he
  obtain ⟨i, hi⟩ := hall re hre
  exact ⟨i, hi⟩

/-- Every bookmark identifier a successful cmdInsertTableOfContents run
reports has the form mkBookmarkName i now, for the session clock value the
handler read. -/
theorem cmdInsertToc_result_bookmarks (args : Args) (st : EditorState) (r : CmdResult)
    (n : Nat) (l : List TocResEntry)
    (h : (cmdInsertTableOfContents args st).1 = Except.ok r)
    (hr : r.result = some (ResVal.tocEntries n l)) :
    ∀ e ∈ l, ∃ i, e.bookmark = mkBookmarkName i st.now := by
  cases hEd : st.hasEditor with
  | false =>
    have heq : cmdInsertTableOfContents args st = (Except.ok noActiveEditor, st) := by
      simp [cmdInsertTableOfContents, hEd]
    rw [heq] at h
    have hrr := Except.ok.inj h
    rw [← hrr] at hr
    simp [noActiveEditor, errResult] at hr
  | true =>
    rcases hEnt : args.entries with _ | entries
    · have heq : cmdInsertTableOfContents args st
          = (Except.ok (errResult "entries is required: [{level: 1-6, from: N, to: M}, ...]"), st) := by
        simp [cmdInsertTableOfContents, hEd, hEnt]
      rw [heq] at h
      have hrr := Except.ok.inj h
      rw [← hrr] at hr
      simp [errResult] at hr
    · by_cases hEmp : entries.isEmpty = true
      · have heq : cmdInsertTableOfContents args st
            = (Except.ok (errResult "entries is required: [{level: 1-6, from: N, to: M}, ...]"), st) := by
          simp [cmdInsertTableOfContents, hEd, hEnt, hEmp]
        rw [heq] at h
        have hrr := Except.ok.inj h
        rw [← hrr] at hr
        simp [errResult] at hr
      · rcases hres : resolveEntries st.doc st.now 0 entries with resolved | m | m
        · rcases hanch : anchorOf args.position with _ | a
          · have heq : cmdInsertTableOfContents args st = finishInsertToc args resolved 0 st := by
              simp [cmdInsertTableOfContents, hEd, hEnt, hEmp, hres, hanch]
            rw [heq] at h
            exact finishInsertToc_bookmarks args resolved 0 st st.now r n l
              (resolveEntries_bookmarks st.doc st.now entries 0 resolved hres) h hr
          · rcases hfind : findAnchor st a with _ | mch
            · have heq : cmdInsertTableOfContents args st
                  = (Except.ok (errResult ("Anchor text not found: \"" ++ a ++ "\"")), st) := by
                simp [cmdInsertTableOfContents, hEd, hEnt, hEmp, hres, hanch, hfind]
              rw [heq] at h
              have hrr := Except.ok.inj h
              rw [← hrr] at hr
              simp [errResult] at hr
            · have heq : cmdInsertTableOfContents args st
                  = finishInsertToc args resolved
                      (if posAfterTruthy args.position then mch.mto else mch.mfrom) st := by
                simp [cmdInsertTableOfContents, hEd, hEnt, hEmp, hres, hanch, hfind]
              rw [heq] at h
              exact finishInsertToc_bookmarks args resolved _ st st.now r n l
                (resolveEntries_bookmarks st.doc st.now entries 0 resolved hres) h hr
        · have heq : cmdInsertTableOfContents args st = (Except.ok (errResult m), st) := by
            simp [cmdInsertTableOfContents, hEd, hEnt, hEmp, hres]
          rw [heq] at h
          have hrr := Except.ok.inj h
          rw [← hrr] at hr
          simp [errResult] at hr
        · have heq : cmdInsertTableOfContents args st = (Except.error m, st) := by
            simp [cmdInsertTableOfContents, hEd, hEnt, hEmp, hres]
          rw [heq] at h
          exact Except.noConfusion h

/-- C6 (amended): two successful insertTableOfContents invocations whose
Date.now() readings differ synthesize disjoint bookmark identifier sets
(one identifier per entry, derived from the entry index and the shared
timestamp).  Invocations that read the same clock value produce identical
identifiers (see the counterexample), so the distinct-timestamp proviso is
necessary. -/
theorem toc_bookmarks_disjoint (a1 a2 : Args) (st1 st2 : EditorState)
    (r1 r2 : CmdResult) (n1 n2 : Nat) (l1 l2 : List TocResEntry)
    (h1 : (cmdInsertTableOfContents a1 st1).1 = Except.ok r1)
    (hr1 : r1.result = some (ResVal.tocEntries n1 l1))
    (h2 : (cmdInsertTableOfContents a2 st2).1 = Except.ok r2)
    (hr2 : r2.result = some (ResVal.tocEntries n2 l2))
    (ht : st1.now ≠ st2.now) :
    ∀ b ∈ l1.map (fun e => e.bookmark), b ∉ l2.map (fun e => e.bookmark) := by
  intro b hb1 hb2
  obtain ⟨e1, he1, hbe1⟩ := List.mem_map.mp hb1
  obtain ⟨e2, he2, hbe2⟩ := List.mem_map.mp hb2
  obtain ⟨i, hi⟩ := cmdInsertToc_result_bookmarks a1 st1 r1 n1 l1 h1 hr1 e1 he1
  obtain ⟨j, hj⟩ := cmdInsertToc_result_bookmarks a2 st2 r2 n2 l2 h2 hr2 e2 he2
  apply ht
  have hb : mkBookmarkName i st1.now = mkBookmarkName j st2.now := by
    rw [← hi, ← hj, hbe1, hbe2]
  exact (mkBookmarkName_inj i st1.now j st2.now hb).2

/-- C6 witness: the same one-entry TOC inserted at clock values 111 and
222 yields the bookmark Toc-0-111 in the first run, which does not occur
among the second run's bookmarks. -/
theorem toc_bookmarks_disjoint_witness :
    mkBookmarkName 0 111 ∉
      ([{ level := 1, text := "Heading", bookmark := mkBookmarkName 0 222 }]
        : List TocResEntry).map (fun e => e.bookmark) :=
  toc_bookmarks_disjoint
    { entries := some [some { level := 1, efrom := 0, eto := 7 }], title := some "" }
    { entries := some [some { level := 1, efrom := 0, eto := 7 }], title := some "" }
    { doc := "Heading text".data, now := 111 }
    { doc := "Heading text".data, now := 222 }
    (okWith (ResVal.tocEntries 1
      [{ level := 1, text := "Heading", bookmark := mkBookmarkName 0 111 }]))
    (okWith (ResVal.tocEntries 1
      [{ level := 1, text := "Heading", bookmark := mkBookmarkName 0 222 }]))
    1 1
    [{ level := 1, text := "Heading", bookmark := mkBookmarkName 0 111 }]
    [{ level := 1, text := "Heading", bookmark := mkBookmarkName 0 222 }]
    rfl rfl rfl rfl (by decide)
    (mkBookmarkName 0 111) (by simp)

/-- C6 counterexample: two invocations in the same session that read the
same Date.now() value (the session clock does not advance between them)
produce the identical bookmark identifier Toc-0-111: the sets are not
disjoint, refuting the claim without its timestamp proviso. -/
theorem toc_bookmarks_counterexample_same_timestamp :
    (cmdInsertTableOfContents
        { entries := some [some { level := 1, efrom := 0, eto := 7 }], title := some "" }
        { doc := "Heading text".data, now := 111 }).1
      = Except.ok (okWith (ResVal.tocEntries 1
          [{ level := 1, text := "Heading", bookmark := mkBookmarkName 0 111 }]))
    ∧ (cmdInsertTableOfContents
        { entries := some [some { level := 1, efrom := 0, eto := 7 }], title := some "" }
        ((cmdInsertTableOfContents
          { entries := some [some { level := 1, efrom := 0, eto := 7 }], title := some "" }
          { doc := "Heading text".data, now := 111 }).2)).1
      = Except.ok (okWith (ResVal.tocEntries 1
          [{ level := 1, text := "Heading", bookmark := mkBookmarkName 0 111 }])) :=
  ⟨rfl, rfl⟩

/-! ### Claim C7: image source resolution for insertImage -/

/-- C7 (amended): Bridge image preprocessing passes data URIs through
untouched, resolves relative file paths against the document's directory,
and defaults the fetched content type to image/png when the response
specifies none; but a 301/302 response with a location is followed by a
plain recursive call with no depth counter, so redirects are chased
without bound — each redirect hop is one further recursive fetch — not
"at most one" (see the two-redirect counterexample). -/
theorem image_resolution (fsFiles : List (String × List Nat))
    (net : List (String × HttpResp)) (fuel : Nat) (docDir src : String) :
    (strStarts src "data:" = true →
      preprocessImageSrc fsFiles net fuel docDir src = Except.ok src)
    ∧ (strStarts src "data:" = false → strStarts src "http://" = false →
       strStarts src "https://" = false → strStarts src "/" = false →
       ∀ buffer, fsFiles.lookup (docDir ++ "/" ++ src) = some buffer →
         preprocessImageSrc fsFiles net fuel docDir src
           = Except.ok (toDataUri
               (getMimeType (extname (docDir ++ "/" ++ src)).toLower) buffer))
    ∧ (∀ url resp, net.lookup url = some resp → resp.status = 200 →
        resp.contentType = none →
        fetchImageAsBase64 net (fuel + 1) url
          = Except.ok (toDataUri "image/png" resp.body))
    ∧ (∀ url resp next, net.lookup url = some resp →
        (resp.status = 301 ∨ resp.status = 302) → resp.location = some next →
        fetchImageAsBase64 net (fuel + 1) url = fetchImageAsBase64 net fuel next) := by
  refine ⟨?_, ?_, ?_, ?_⟩
  · intro h
    simp [preprocessImageSrc, h]
  · intro hd hh hhs hs buffer hb
    simp [preprocessImageSrc, convertImageToBase64, hd, hh, hhs, hs, hb]
  · intro url resp hlk h200 hct
    simp [fetchImageAsBase64, hlk, h200, hct]
  · intro url resp next hlk hst hloc
    rcases hst with h | h <;> simp [fetchImageAsBase64, hlk, h, hloc]

/-- C7 witness: the four resolution behaviours at concrete inputs — a data
URI is forwarded, a relative gif path joins the document directory and
gets image/gif, a 200 response without a content type yields an image/png
data URI, and a 301-with-location fetch equals the fetch of its target. -/
theorem image_resolution_witness :
    preprocessImageSrc [] [] 0 "/docs" "data:image/png;base64,AAAA"
      = Except.ok "data:image/png;base64,AAAA"
    ∧ preprocessImageSrc [("/docs/pic.gif", [1, 2, 3])] [] 0 "/docs" "pic.gif"
        = Except.ok (toDataUri
            (getMimeType (extname ("/docs" ++ "/" ++ "pic.gif")).toLower) [1, 2, 3])
    ∧ fetchImageAsBase64 [("http://x", { status := 200, body := [5] })] 1 "http://x"
        = Except.ok (toDataUri "image/png" [5])
    ∧ fetchImageAsBase64 [("http://a", { status := 301, location := some "http://b" })]
          1 "http://a"
        = fetchImageAsBase64 [("http://a", { status := 301, location := some "http://b" })]
          0 "http://b" := by
  refine ⟨?_, ?_, ?_, ?_⟩
  · exact (image_resolution [] [] 0 "/docs" "data:image/png;base64,AAAA").1 (by decide)
  · exact (image_resolution [("/docs/pic.gif", [1, 2, 3])] [] 0 "/docs" "pic.gif").2.1
      (by decide) (by decide) (by decide) (by decide) [1, 2, 3] (by decide)
  · exact (image_resolution [] [("http://x", { status := 200, body := [5] })] 0 "x"
      "x").2.2.1 "http://x" { status := 200, body := [5] } (by decide) rfl rfl
  · exact (image_resolution [] [("http://a", { status := 301, location := some "http://b" })]
      0 "x" "x").2.2.2 "http://a" { status := 301, location := some "http://b" }
      "http://b" (by decide) (Or.inl rfl) rfl

/-- C7 counterexample: a fetch whose target answers 301 to a URL that
itself answers 302 still succeeds — the code follows both redirects (and
would follow any number), refuting "at most one redirect". -/
theorem fetch_follows_two_redirects_counterexample :
    fetchImageAsBase64
      [("http://a", { status := 301, location := some "http://b" }),
       ("http://b", { status := 302, location := some "http://c" }),
       ("http://c", { status := 200, contentType := some "image/gif", body := [1, 2, 3] })]
      5 "http://a"
      = Except.ok (toDataUri "image/gif" [1, 2, 3]) := rfl

end SuperDoc
